import Mathlib

/-!
Verification of the Microsub endpoint's ingestion and storage engine.

Shallow embedding of the JavaScript sources:
- `src/lib/polling/tier.js`          (adaptive tier scheduler)
- `src/lib/storage/items.js`         (item store: addItem, timeline, read state, cleanup)
- `src/lib/storage/channels.js`      (channel listing with unread counts)
- `src/lib/utils/pagination.js`      (cursor encoding and pagination queries)
- `src/lib/polling/processor.js`     (feed processing pipeline)
- `src/lib/websub/handler.js` and the WebSub subscriber (push callback, HMAC check)

Conventions: MongoDB ObjectIds are modelled as `Nat` (they are totally ordered and
unique; the hex parse of `new ObjectId(string)` is modelled as a decimal `Nat`
parse), timestamps ("Date") as `Int` milliseconds, absent document fields as
`Option`/`[]`/`false`.  `_stripped: { $ne: true }` is modelled by a `stripped : Bool`
field whose default is `false`.  Network and database I/O are made explicit: a
fetch outcome is a parameter, a collection is a `List` of documents.
-/

/-! ## Tier scheduler: `src/lib/polling/tier.js` -/

def MIN_TIER : Int := 0

def MAX_TIER : Int := 10

def DEFAULT_TIER : Int := 1

/-- Polling interval for a tier, in milliseconds (`getIntervalForTier`):
`2^clampedTier` minutes, tier clamped to `[MIN_TIER .. MAX_TIER]`. -/
def getIntervalForTier (tier : Int) : Int :=
  let clampedTier := max MIN_TIER (min MAX_TIER tier)
  let minutes := (2 : Int) ^ clampedTier.toNat
  minutes * 60 * 1000

/-- Next fetch time (`getNextFetchTime`); `Date.now()` is the explicit `now`. -/
def getNextFetchTime (now tier : Int) : Int :=
  now + getIntervalForTier tier

structure TierResult where
  tier : Int
  consecutiveUnchanged : Int
  nextFetchAt : Int
deriving Repr, DecidableEq

/-- The tier-adjustment rule (`calculateNewTier`).  The source destructures an
options object with defaults `currentTier = DEFAULT_TIER`,
`consecutiveUnchanged = 0`; callers always pass the fields, so they are plain
arguments here. -/
def calculateNewTier (currentTier : Int) (hasNewItems : Bool)
    (consecutiveUnchanged : Int) (now : Int) : TierResult :=
  let upd : Int × Int :=
    if hasNewItems then
      -- reset unchanged counter; decrease tier if above MIN_TIER
      (if currentTier > MIN_TIER then currentTier - 1 else currentTier, 0)
    else
      -- increment unchanged counter; raise tier once the threshold is met
      let newConsecutiveUnchanged := consecutiveUnchanged + 1
      let threshold := max 2 currentTier
      if newConsecutiveUnchanged ≥ threshold ∧ currentTier < MAX_TIER then
        (currentTier + 1, 0)
      else
        (currentTier, newConsecutiveUnchanged)
  { tier := upd.1
    consecutiveUnchanged := upd.2
    nextFetchAt := getNextFetchTime now upd.1 }

/-! ## String helpers

Structural-recursion equivalents of `String.split`, `toLowerCase` and decimal
parsing, so that every operation kernel-evaluates on concrete inputs.  They
model the corresponding JavaScript string methods. -/

/-- Does `sep` occur at the head of the input? -/
def headHasSeq : List Char → List Char → Bool
  | [], _ => true
  | _ :: _, [] => false
  | s :: ss, c :: cs => decide (s = c) && headHasSeq ss cs

/-- Fueled splitter on a (nonempty) separator sequence. -/
def splitSeqGo (sep : List Char) : Nat → List Char → List Char → List (List Char)
  | _, acc, [] => [acc.reverse]
  | 0, acc, rest => [acc.reverse ++ rest]
  | fuel + 1, acc, c :: cs =>
    if headHasSeq sep (c :: cs) then
      acc.reverse :: splitSeqGo sep fuel [] (List.drop sep.length (c :: cs))
    else
      splitSeqGo sep fuel (c :: acc) cs

/-- `String.prototype.split(sep)` for a nonempty literal separator. -/
def splitOnStr (s sep : String) : List String :=
  if sep = "" then [s]
  else (splitSeqGo sep.toList (s.length + 1) [] s.toList).map String.mk

/-- ASCII `toLowerCase`. -/
def toLowerAscii (s : String) : String :=
  String.mk (s.toList.map fun c =>
    if 65 ≤ c.toNat ∧ c.toNat ≤ 90 then Char.ofNat (c.toNat + 32) else c)

/-- Decimal digits to a number. -/
def digitsToNat (ds : List Char) : Nat :=
  ds.foldl (fun a c => a * 10 + (c.toNat - 48)) 0

/-! ## Item documents: the shape built by `addItem` in `src/lib/storage/items.js` -/

/-- A `content = {text, html}` value. -/
structure JsContent where
  text : Option String
  html : Option String
deriving Repr, DecidableEq

/-- A media value: the source stores either a URL string or an object whose URL
is recovered by `extractMediaUrl` from `value`/`url`/`src`. -/
inductive MediaVal where
  | str (s : String)
  | obj (value url src : Option String)
deriving Repr, DecidableEq

/-- An `author = {name, url, photo}` value as stored. -/
structure JsAuthor where
  name : Option String
  url : Option String
  photo : Option MediaVal
deriving Repr, DecidableEq

/-- An item's `source = {url, feedUrl, name}` metadata. -/
structure JsSource where
  url : Option String
  feedUrl : Option String
  name : Option String
deriving Repr, DecidableEq

/-- One document of the `microsub_items` collection, with the fields the
verified operations read or write.  `oid` is the MongoDB `_id`; `stripped`
models `_stripped` (absent = `false`). -/
structure StoredItem where
  oid : Nat
  channelId : Nat
  feedId : Option Nat
  uid : String
  type : String
  url : Option String
  name : Option String
  content : Option JsContent
  summary : Option String
  published : Int
  updated : Option Int
  author : Option JsAuthor
  category : List String
  photo : List MediaVal
  video : List MediaVal
  audio : List MediaVal
  likeOf : List String
  repostOf : List String
  bookmarkOf : List String
  inReplyTo : List String
  source : Option JsSource
  readBy : List String
  createdAt : Int
  stripped : Bool
deriving Repr, DecidableEq

/-- A normalized (jf2) item as handed to `addItem` by the processor.  The
hyphenated/camel-cased alternatives (`item["like-of"] || item.likeOf`) are a
single field each. -/
structure NormItem where
  uid : String
  type : Option String
  url : Option String
  name : Option String
  content : Option JsContent
  summary : Option String
  published : Option Int
  updated : Option Int
  author : Option JsAuthor
  category : Option (List String)
  photo : Option (List MediaVal)
  video : Option (List MediaVal)
  audio : Option (List MediaVal)
  likeOf : Option (List String)
  repostOf : Option (List String)
  bookmarkOf : Option (List String)
  inReplyTo : Option (List String)
  source : Option JsSource
deriving Repr, DecidableEq

/-- The `findOne({ channelId, uid })` duplicate probe of `addItem`: does the
collection hold a document with this `(channel, uid)` key?  A stripped skeleton
matches too — the probe has no `_stripped` condition. -/
def hasKey (store : List StoredItem) (channelId : Nat) (uid : String) : Prop :=
  ∃ e ∈ store, e.channelId = channelId ∧ e.uid = uid

instance (store : List StoredItem) (channelId : Nat) (uid : String) :
    Decidable (hasKey store channelId uid) := by
  unfold hasKey; infer_instance

/-- Number of documents with a given `(channel, uid)` key. -/
def countKey (store : List StoredItem) (channelId : Nat) (uid : String) : Nat :=
  store.countP fun e => decide (e.channelId = channelId ∧ e.uid = uid)

/-- Insert an item (`addItem`).  Returns the new store (with the Mongo `_id`
counter) and the created document, or `none` on a duplicate.  JS falsy
defaults (`item.type || "entry"`, `item.category || []`, …) become `getD`;
`new Date()` for a missing `published` is the explicit `now`. -/
def addItem (store : List StoredItem) (nextOid : Nat) (channelId : Nat)
    (feedId : Option Nat) (uid : String) (item : NormItem) (now : Int) :
    (List StoredItem × Nat) × Option StoredItem :=
  if hasKey store channelId uid then
    ((store, nextOid), none)  -- duplicate, don't add
  else
    let doc : StoredItem :=
      { oid := nextOid
        channelId := channelId
        feedId := feedId
        uid := uid
        type := item.type.getD "entry"
        url := item.url
        name := item.name
        content := item.content
        summary := item.summary
        published := item.published.getD now
        updated := item.updated
        author := item.author
        category := item.category.getD []
        photo := item.photo.getD []
        video := item.video.getD []
        audio := item.audio.getD []
        likeOf := item.likeOf.getD []
        repostOf := item.repostOf.getD []
        bookmarkOf := item.bookmarkOf.getD []
        inReplyTo := item.inReplyTo.getD []
        source := item.source
        readBy := []
        createdAt := now
        stripped := false }
    ((store ++ [doc], nextOid + 1), some doc)

/-- Ingest a parsed feed: the processor's per-item loop restricted to the
`addItem` calls (no filters), as exercised by the dedup property. -/
def ingestFeed (s : List StoredItem × Nat) (channelId : Nat) (feedId : Option Nat)
    (items : List NormItem) (now : Int) : List StoredItem × Nat :=
  items.foldl (fun acc i => (addItem acc.1 acc.2 channelId feedId i.uid i now).1) s

/-- Ingest the same feed `n` times. -/
def ingestTimes (n : Nat) (s : List StoredItem × Nat) (channelId : Nat)
    (feedId : Option Nat) (items : List NormItem) (now : Int) : List StoredItem × Nat :=
  (fun t => ingestFeed t channelId feedId items now)^[n] s

/-! ## Read state and retention: `markItemsRead` / `cleanupOldReadItems` -/

/-- The retention limit `MAX_FULL_READ_ITEMS`. -/
def MAX_FULL_READ_ITEMS : Nat := 200

/-- The Mongo sort `{ published: -1, _id: -1 }` as a total order:
newest first, ties broken by descending `_id`. -/
def timelineDescLe (a b : StoredItem) : Prop :=
  b.published < a.published ∨ (a.published = b.published ∧ b.oid ≤ a.oid)

instance : DecidableRel timelineDescLe := fun a b => by
  unfold timelineDescLe; infer_instance

instance : IsTotal StoredItem timelineDescLe :=
  ⟨by intro a b; unfold timelineDescLe; omega⟩

instance : IsTrans StoredItem timelineDescLe :=
  ⟨by intro a b c; unfold timelineDescLe; omega⟩

/-- The `$addToSet: { readBy: userId }` update on one document. -/
def addToSet (user : String) (e : StoredItem) : StoredItem :=
  if user ∈ e.readBy then e else { e with readBy := e.readBy ++ [user] }

/-- The `$unset`/`$set` update of cleanup: remove content, name, summary,
author, category, media, interaction fields and source; set `_stripped: true`.
Unset list-valued fields are modelled as `[]` (both are "no values" to every
query in scope).  `channelId`, `feedId`, `uid`, `url`, `published`, `readBy`
are untouched. -/
def stripItem (e : StoredItem) : StoredItem :=
  { e with
    stripped := true
    name := none
    content := none
    summary := none
    author := none
    category := []
    photo := []
    video := []
    audio := []
    likeOf := []
    repostOf := []
    bookmarkOf := []
    inReplyTo := []
    source := none }

/-- The query `{ channelId, readBy: userId }`: read by this user (array
containment), stripped skeletons included. -/
def readByUserPred (channelId : Nat) (user : String) (e : StoredItem) : Prop :=
  e.channelId = channelId ∧ user ∈ e.readBy

instance (channelId : Nat) (user : String) : DecidablePred (readByUserPred channelId user) :=
  fun e => by unfold readByUserPred; infer_instance

/-- The query `{ channelId, readBy: userId, _stripped: { $ne: true } }`:
a full (non-stripped) read item. -/
def fullReadPred (channelId : Nat) (user : String) (e : StoredItem) : Prop :=
  e.channelId = channelId ∧ user ∈ e.readBy ∧ e.stripped ≠ true

instance (channelId : Nat) (user : String) : DecidablePred (fullReadPred channelId user) :=
  fun e => by unfold fullReadPred; infer_instance

/-- The cleanup working list: full read items of the `(channel, user)` pair,
sorted `{ published: -1, _id: -1 }`, with the newest `MAX_FULL_READ_ITEMS`
skipped.  (The source projects to `{_id, feedId}`; the whole document is kept
here since only those two fields are read.) -/
def cleanupDropList (store : List StoredItem) (channelId : Nat) (user : String) :
    List StoredItem :=
  (List.insertionSort timelineDescLe
    (store.filter fun e => decide (fullReadPred channelId user e))).drop MAX_FULL_READ_ITEMS

/-- Retention cleanup for one `(channel, user)` pair (`cleanupOldReadItems`).
Old read items with a `feedId` are stripped to dedup skeletons; those without
(`feedId: null`, push-sourced) are hard-deleted. -/
def cleanupOldReadItems (store : List StoredItem) (channelId : Nat) (user : String) :
    List StoredItem :=
  let readCount := store.countP fun e => decide (readByUserPred channelId user e)
  if readCount > MAX_FULL_READ_ITEMS then
    let itemsToCleanup := cleanupDropList store channelId user
    if itemsToCleanup = [] then store
    else
      let apItemIds : List Nat := (itemsToCleanup.filter fun e => e.feedId = none).map (·.oid)
      let rssItemIds : List Nat := (itemsToCleanup.filter fun e => e.feedId ≠ none).map (·.oid)
      -- deleteMany({_id: {$in: apItemIds}}) then updateMany strip on rssItemIds
      (store.filter fun e => decide (e.oid ∉ apItemIds)).map
        fun e => if e.oid ∈ rssItemIds then stripItem e else e
  else store

/-- The `apItemIds` list of the cleanup: ids of old read items with
`feedId: null` (push-sourced), to be hard-deleted. -/
def cleanupApIds (store : List StoredItem) (channelId : Nat) (user : String) : List Nat :=
  ((cleanupDropList store channelId user).filter fun e => e.feedId = none).map (·.oid)

/-- The `rssItemIds` list of the cleanup: ids of old read items with a
`feedId` (poll-sourced), to be stripped. -/
def cleanupRssIds (store : List StoredItem) (channelId : Nat) (user : String) : List Nat :=
  ((cleanupDropList store channelId user).filter fun e => e.feedId ≠ none).map (·.oid)

/-- Mongo `ObjectId` construction from a client string (`new ObjectId(id)`
with try/catch): modelled as a decimal `Nat` parse, `none` when it throws. -/
def parseObjectId (s : String) : Option Nat :=
  let cs := s.toList
  if cs ≠ [] ∧ cs.all (·.isDigit) then some (digitsToNat cs) else none

/-- Mark entries read (`markItemsRead`).  The sentinel `"last-read-entry"`
marks the whole channel and then runs the per-channel cleanup; the id-list
branch matches by `_id`, `uid` or `url` and returns without cleanup. -/
def markItemsRead (store : List StoredItem) (channelId : Nat)
    (entryIds : List String) (user : String) : List StoredItem :=
  if "last-read-entry" ∈ entryIds then
    let marked := store.map fun e =>
      if e.channelId = channelId then addToSet user e else e
    cleanupOldReadItems marked channelId user
  else
    let objectIds := entryIds.filterMap parseObjectId
    store.map fun e =>
      if e.channelId = channelId ∧
          (e.oid ∈ objectIds ∨ e.uid ∈ entryIds ∨ e.url ∈ entryIds.map some) then
        addToSet user e
      else e

/-! ## Unread counts: `getUnreadCount` (items.js) and the count inside
`getChannels` (channels.js) -/

/-- The retention window `UNREAD_RETENTION_DAYS`, in milliseconds.
`cutoffDate.setDate(getDate() - 30)` is modelled as `now - 30 * 86400000`. -/
def UNREAD_RETENTION_MS : Int := 30 * 86400000

/-- Unread count of a channel (`getUnreadCount`): not read by the user,
published within the retention window, stripped skeletons excluded. -/
def getUnreadCount (store : List StoredItem) (channelId : Nat) (user : String)
    (now : Int) : Nat :=
  let cutoffDate := now - UNREAD_RETENTION_MS
  store.countP fun e => decide
    (e.channelId = channelId ∧ user ∉ e.readBy ∧
      cutoffDate ≤ e.published ∧ e.stripped ≠ true)

/-- The per-channel unread count computed inside `getChannels`
(`src/lib/storage/channels.js`): same `readBy`/`published` conditions but
no `_stripped` condition. -/
def channelsListUnreadCount (store : List StoredItem) (channelId : Nat)
    (user : String) (now : Int) : Nat :=
  let cutoffDate := now - UNREAD_RETENTION_MS
  store.countP fun e => decide
    (e.channelId = channelId ∧ user ∉ e.readBy ∧ cutoffDate ≤ e.published)

/-! ## Cursor encoding: `src/lib/utils/pagination.js`

`encodeCursor` writes `base64url(JSON.stringify({t: iso8601, i: idString}))`;
`decodeCursor` reverses it inside a try/catch.  Node's base64 decoder skips
every character outside the alphabet (padding included) and never throws, and
`Buffer.toString("utf8")` never throws either, so the only throwing step is
`JSON.parse` (and the `data.t` access when the JSON value is `null`). -/

/-- JSON values, as far as `JSON.parse` output is inspected here. -/
inductive Json where
  | null
  | bool (b : Bool)
  | num (n : Int)
  | str (s : String)
  | arr (elems : List Json)
  | obj (fields : List (String × Json))

def lbraceChar : Char := Char.ofNat 123

def rbraceChar : Char := Char.ofNat 125

def quoteChar : Char := Char.ofNat 34

def singleQuote : String := (Char.ofNat 39).toString

def jsonSkipWs : List Char → List Char
  | c :: cs =>
    if c = ' ' ∨ c = Char.ofNat 9 ∨ c = Char.ofNat 10 ∨ c = Char.ofNat 13 then jsonSkipWs cs
    else c :: cs
  | [] => []

def jsonTakeDigits : List Char → (List Char × List Char)
  | c :: cs =>
    if c.isDigit then
      let (d, r) := jsonTakeDigits cs
      (c :: d, r)
    else ([], c :: cs)
  | [] => ([], [])

/-- Body of a JSON string after the opening quote; returns the content and the
rest after the closing quote.  `\uXXXX` escapes are not modelled (a cursor
written by `encodeCursor` never contains them). -/
def jsonParseStringBody : Nat → List Char → Option (List Char × List Char)
  | 0, _ => none
  | _ + 1, [] => none
  | fuel + 1, c :: cs =>
    if c = quoteChar then some ([], cs)
    else if c = Char.ofNat 92 then
      match cs with
      | e :: cs2 =>
        let esc : Option Char :=
          if e = quoteChar then some quoteChar
          else if e = Char.ofNat 92 then some (Char.ofNat 92)
          else if e = Char.ofNat 47 then some (Char.ofNat 47)
          else if e = 'n' then some (Char.ofNat 10)
          else if e = 't' then some (Char.ofNat 9)
          else if e = 'r' then some (Char.ofNat 13)
          else if e = 'b' then some (Char.ofNat 8)
          else if e = 'f' then some (Char.ofNat 12)
          else none
        match esc with
        | some ch => (jsonParseStringBody fuel cs2).map fun br => (ch :: br.1, br.2)
        | none => none
      | [] => none
    else (jsonParseStringBody fuel cs).map fun br => (c :: br.1, br.2)

mutual

/-- Fueled JSON value parsing.  Fractional and exponent number forms are not
modelled (the cursor payload only carries decimal integers and strings): on
such inputs the trailing characters make the whole parse fail where
`JSON.parse` would succeed. -/
def jsonParseValue : Nat → List Char → Option (Json × List Char)
  | 0, _ => none
  | fuel + 1, cs =>
    match jsonSkipWs cs with
    | [] => none
    | c :: rest =>
      if c = 'n' then
        match rest with
        | c1 :: c2 :: c3 :: r =>
          if c1 = 'u' ∧ c2 = 'l' ∧ c3 = 'l' then some (.null, r) else none
        | _ => none
      else if c = 't' then
        match rest with
        | c1 :: c2 :: c3 :: r =>
          if c1 = 'r' ∧ c2 = 'u' ∧ c3 = 'e' then some (.bool true, r) else none
        | _ => none
      else if c = 'f' then
        match rest with
        | c1 :: c2 :: c3 :: c4 :: r =>
          if c1 = 'a' ∧ c2 = 'l' ∧ c3 = 's' ∧ c4 = 'e' then some (.bool false, r) else none
        | _ => none
      else if c = quoteChar then
        (jsonParseStringBody (fuel + 1) rest).map fun br => (.str (String.mk br.1), br.2)
      else if c = '-' then
        match jsonTakeDigits rest with
        | ([], _) => none
        | (ds, r) => some (.num (-(digitsToNat ds : Int)), r)
      else if c.isDigit then
        match jsonTakeDigits (c :: rest) with
        | (ds, r) => some (.num (digitsToNat ds : Int), r)
      else if c = '[' then
        match jsonSkipWs rest with
        | c2 :: r2 =>
          if c2 = ']' then some (.arr [], r2)
          else (jsonParseArrItems fuel (c2 :: r2)).map fun vr => (.arr vr.1, vr.2)
        | [] => none
      else if c = lbraceChar then
        match jsonSkipWs rest with
        | c2 :: r2 =>
          if c2 = rbraceChar then some (.obj [], r2)
          else (jsonParseObjFields fuel (c2 :: r2)).map fun fr => (.obj fr.1, fr.2)
        | [] => none
      else none

/-- One or more comma-separated array elements followed by `]`. -/
def jsonParseArrItems : Nat → List Char → Option (List Json × List Char)
  | 0, _ => none
  | fuel + 1, cs =>
    match jsonParseValue fuel cs with
    | none => none
    | some (v, r) =>
      match jsonSkipWs r with
      | c :: r2 =>
        if c = ',' then (jsonParseArrItems fuel r2).map fun vr => (v :: vr.1, vr.2)
        else if c = ']' then some ([v], r2)
        else none
      | [] => none

/-- One or more comma-separated `"key": value` fields followed by a closing
brace. -/
def jsonParseObjFields : Nat → List Char → Option (List (String × Json) × List Char)
  | 0, _ => none
  | fuel + 1, cs =>
    match jsonSkipWs cs with
    | c :: rest =>
      if c = quoteChar then
        match jsonParseStringBody (fuel + 1) rest with
        | none => none
        | some (key, r) =>
          match jsonSkipWs r with
          | c2 :: r2 =>
            if c2 = ':' then
              match jsonParseValue fuel r2 with
              | none => none
              | some (v, r3) =>
                match jsonSkipWs r3 with
                | c3 :: r4 =>
                  if c3 = ',' then
                    (jsonParseObjFields fuel r4).map fun fr =>
                      ((String.mk key, v) :: fr.1, fr.2)
                  else if c3 = rbraceChar then some ([(String.mk key, v)], r4)
                  else none
                | [] => none
            else none
          | [] => none
      else none
    | [] => none

end

/-- The `JSON.parse` model: a single value with only whitespace after it. -/
def jsonParse (s : String) : Option Json :=
  match jsonParseValue (s.length + 1) s.toList with
  | some (v, rest) => if jsonSkipWs rest = [] then some v else none
  | none => none

/-- Property access `data[k]` on a parsed JSON value: a field of an object,
`undefined` on every non-object (except `null`, handled in `decodeCursor`). -/
def jsGet (j : Json) (k : String) : Option Json :=
  match j with
  | .obj fields => (fields.find? fun f => f.1 == k).map (·.2)
  | _ => none

/-! ### Base64url (Node `Buffer` semantics) -/

/-- Node's base64 decoder accepts both alphabets and silently skips every
other character (`=` padding included). -/
def b64Val (c : Char) : Option Nat :=
  let n := c.toNat
  if 65 ≤ n ∧ n ≤ 90 then some (n - 65)
  else if 97 ≤ n ∧ n ≤ 122 then some (n - 97 + 26)
  else if 48 ≤ n ∧ n ≤ 57 then some (n - 48 + 52)
  else if c = '-' ∨ c = '+' then some 62
  else if c = '_' ∨ c = '/' then some 63
  else none

/-- Groups of four 6-bit values become three bytes; a trailing group of three
or two values becomes two or one bytes; a lone trailing value is dropped. -/
def b64Group : List Nat → List Nat
  | a :: b :: c :: d :: rest =>
    (a * 4 + b / 16) :: ((b % 16) * 16 + c / 4) :: ((c % 4) * 64 + d) :: b64Group rest
  | [a, b, c] => [a * 4 + b / 16, (b % 16) * 16 + c / 4]
  | [a, b] => [a * 4 + b / 16]
  | [_] => []
  | [] => []

def b64urlDecode (s : String) : List Nat :=
  b64Group (s.toList.filterMap b64Val)

/-- The `Buffer.toString("utf8")` step.  ASCII bytes decode exactly; every
byte ≥ 0x80 becomes U+FFFD (multi-byte UTF-8 grouping is not modelled —
`encodeCursor` only ever emits ASCII). -/
def bytesToStringLossy (bs : List Nat) : String :=
  String.mk (bs.map fun b => if b < 128 then Char.ofNat b else Char.ofNat 0xFFFD)

def b64Char (n : Nat) : Char :=
  if n < 26 then Char.ofNat (65 + n)
  else if n < 52 then Char.ofNat (97 + n - 26)
  else if n < 62 then Char.ofNat (48 + n - 52)
  else if n = 62 then '-'
  else '_'

def b64urlEncode : List Nat → List Char
  | a :: b :: c :: rest =>
    b64Char (a / 4) :: b64Char ((a % 4) * 16 + b / 16) ::
      b64Char ((b % 16) * 4 + c / 64) :: b64Char (c % 64) :: b64urlEncode rest
  | [a, b] => [b64Char (a / 4), b64Char ((a % 4) * 16 + b / 16), b64Char ((b % 16) * 4)]
  | [a] => [b64Char (a / 4), b64Char ((a % 4) * 16)]
  | [] => []

/-! ### ISO-8601 timestamps (the `toISOString` format) -/

/-- Days since the Unix epoch of a civil date (Gregorian, proleptic). -/
def daysFromCivil (y m d : Int) : Int :=
  let y := if m ≤ 2 then y - 1 else y
  let era := Int.fdiv y 400
  let yoe := y - era * 400
  let mp := (m + 9) % 12
  let doy := Int.fdiv (153 * mp + 2) 5 + d - 1
  let doe := yoe * 365 + Int.fdiv yoe 4 - Int.fdiv yoe 100 + doy
  era * 146097 + doe - 719468

/-- Civil date from days since the Unix epoch. -/
def civilFromDays (z0 : Int) : Int × Int × Int :=
  let z := z0 + 719468
  let era := Int.fdiv z 146097
  let doe := z - era * 146097
  let yoe := Int.fdiv (doe - Int.fdiv doe 1460 + Int.fdiv doe 36524 - Int.fdiv doe 146096) 365
  let y := yoe + era * 400
  let doy := doe - (365 * yoe + Int.fdiv yoe 4 - Int.fdiv yoe 100)
  let mp := Int.fdiv (5 * doy + 2) 153
  let d := doy - Int.fdiv (153 * mp + 2) 5 + 1
  let m := mp + (if mp < 10 then 3 else -9)
  (y + (if m ≤ 2 then 1 else 0), m, d)

def isTwoDigits (a b : Char) : Bool := a.isDigit && b.isDigit

def twoDigits (a b : Char) : Int := ((a.toNat - 48) * 10 + (b.toNat - 48) : Nat)

/-- The `new Date(string)` model, restricted to the canonical
`YYYY-MM-DDTHH:MM:SS.mmmZ` format that `Date.prototype.toISOString` (and hence
`encodeCursor`) produces.  Every other string yields an Invalid Date
(`none`). -/
def parseIsoDate (s : String) : Option Int :=
  match s.toList with
  | [y1, y2, y3, y4, s1, mo1, mo2, s2, d1, d2, tC, h1, h2, c1, mi1, mi2, c2,
      se1, se2, dotC, f1, f2, f3, zC] =>
    if (y1.isDigit && y2.isDigit && y3.isDigit && y4.isDigit &&
        isTwoDigits mo1 mo2 && isTwoDigits d1 d2 && isTwoDigits h1 h2 &&
        isTwoDigits mi1 mi2 && isTwoDigits se1 se2 &&
        f1.isDigit && f2.isDigit && f3.isDigit) &&
        s1 = '-' && s2 = '-' && tC = 'T' && c1 = ':' && c2 = ':' &&
        dotC = '.' && zC = 'Z' then
      let y : Int := (digitsToNat [y1, y2, y3, y4] : Nat)
      let mo := twoDigits mo1 mo2
      let d := twoDigits d1 d2
      let h := twoDigits h1 h2
      let mi := twoDigits mi1 mi2
      let se := twoDigits se1 se2
      let f : Int := (digitsToNat [f1, f2, f3] : Nat)
      if 1 ≤ mo ∧ mo ≤ 12 ∧ 1 ≤ d ∧ d ≤ 31 ∧ h ≤ 23 ∧ mi ≤ 59 ∧ se ≤ 59 then
        some (daysFromCivil y mo d * 86400000 + h * 3600000 + mi * 60000 + se * 1000 + f)
      else none
    else none
  | _ => none

def pad2 (n : Int) : String := if n < 10 then "0" ++ toString n else toString n

def pad3 (n : Int) : String :=
  if n < 10 then "00" ++ toString n else if n < 100 then "0" ++ toString n else toString n

def pad4 (n : Int) : String :=
  if n < 10 then "000" ++ toString n
  else if n < 100 then "00" ++ toString n
  else if n < 1000 then "0" ++ toString n
  else toString n

/-- Milliseconds since the epoch to the canonical ISO-8601 string
(`Date.prototype.toISOString`). -/
def isoOfMs (ms : Int) : String :=
  let days := Int.fdiv ms 86400000
  let rem := ms - days * 86400000
  let ymd := civilFromDays days
  let h := Int.fdiv rem 3600000
  let mi := Int.fdiv (rem % 3600000) 60000
  let se := Int.fdiv (rem % 60000) 1000
  let f := rem % 1000
  pad4 ymd.1 ++ "-" ++ pad2 ymd.2.1 ++ "-" ++ pad2 ymd.2.2 ++ "T" ++
    pad2 h ++ ":" ++ pad2 mi ++ ":" ++ pad2 se ++ "." ++ pad3 f ++ "Z"

/-! ### Cursors and the pagination query -/

/-- The object `decodeCursor` returns: `timestamp = new Date(data.t)` with
`none` for an Invalid Date, `id = data.i` with `none` for `undefined` (or a
non-string value, which the `ObjectId` constructor cannot parse either). -/
structure JsCursor where
  timestamp : Option Int
  id : Option String
deriving Repr, DecidableEq

/-- The `new Date(data.t)` coercion on a JSON field. -/
def jsDateOf : Option Json → Option Int
  | some (.num n) => some n
  | some (.str s) => parseIsoDate s
  | _ => none

/-- The `data.i` field as the string the `ObjectId` constructor will see. -/
def jsIdOf : Option Json → Option String
  | some (.str s) => some s
  | _ => none

/-- The `decodeCursor` function: base64url-decode, `JSON.parse` inside a
try/catch (`none` when the parse throws, and when the parsed value is `null`,
whose property access throws), then build the cursor object field by field. -/
def decodeCursor (cursor : String) : Option JsCursor :=
  if cursor = "" then none
  else
    match jsonParse (bytesToStringLossy (b64urlDecode cursor)) with
    | none => none
    | some .null => none
    | some data => some { timestamp := jsDateOf (jsGet data "t"), id := jsIdOf (jsGet data "i") }

/-- The `encodeCursor` function:
`base64url(JSON.stringify({t: timestamp.toISOString(), i: id.toString()}))`. -/
def encodeCursor (timestamp : Int) (id : Nat) : String :=
  let json := "\x7b\"t\":\"" ++ isoOfMs timestamp ++ "\",\"i\":\"" ++ toString id ++ "\"\x7d"
  String.mk (b64urlEncode (json.toList.map (·.toNat)))

/-- JS truthiness of an optional string: `undefined` and `""` are falsy. -/
def jsStr (x : Option String) : Option String :=
  match x with
  | some "" => none
  | x => x

/-- The `$or` cursor constraint added by `buildPaginationQuery`.  `newer` is
the `before` direction (`$gt`), otherwise `after` (`$lt`).  `oid = none`
models the fresh random ObjectId produced by `new ObjectId(undefined)`. -/
structure CursorCond where
  newer : Bool
  timestamp : Option Int
  oid : Option Nat
deriving Repr, DecidableEq

/-- The Mongo query of `getTimelineItems`: the base query
`{channelId, _stripped: {$ne: true}}` plus the optional `readBy: {$ne: userId}`
condition and the optional cursor `$or`. -/
structure TimelineQuery where
  channelId : Nat
  readByNe : Option String
  cursorOr : Option CursorCond
deriving Repr, DecidableEq

/-- The `new ObjectId(cursor.id)` step: `undefined` yields a fresh random id
(inner `none`); a string that does not parse makes the constructor throw
(outer `none`), aborting the query build. -/
def objectIdOfCursorId : Option String → Option (Option Nat)
  | none => some none
  | some s => (parseObjectId s).map some

/-- Build the pagination query (`buildPaginationQuery`): `before` wins over
`after` (both tested for JS truthiness); an undecodable cursor adds no
constraint. -/
def buildPaginationQuery (before after : Option String) (base : TimelineQuery) :
    Option TimelineQuery :=
  match jsStr before with
  | some b =>
    match decodeCursor b with
    | some cursor =>
      (objectIdOfCursorId cursor.id).map fun oid =>
        { base with cursorOr := some { newer := true, timestamp := cursor.timestamp, oid := oid } }
    | none => some base
  | none =>
    match jsStr after with
    | some a =>
      match decodeCursor a with
      | some cursor =>
        (objectIdOfCursorId cursor.id).map fun oid =>
          { base with cursorOr := some { newer := false, timestamp := cursor.timestamp, oid := oid } }
      | none => some base
    | none => some base

/-- Evaluate the cursor `$or` on a document.  A comparison against an Invalid
Date matches nothing, and the tie-break against a fresh random ObjectId is
modelled as matching nothing (no theorem exercises either case). -/
def evalCursorCond (c : CursorCond) (e : StoredItem) : Bool :=
  match c.timestamp with
  | none => false
  | some t =>
    if c.newer then
      decide (t < e.published) ||
        (decide (e.published = t) && (match c.oid with
          | some i => decide (i < e.oid)
          | none => false))
    else
      decide (e.published < t) ||
        (decide (e.published = t) && (match c.oid with
          | some i => decide (e.oid < i)
          | none => false))

/-- Evaluate the timeline query on a document. -/
def evalTimelineQuery (q : TimelineQuery) (e : StoredItem) : Bool :=
  decide (e.channelId = q.channelId) &&
    decide (e.stripped ≠ true) &&
    (match q.readByNe with
      | some u => decide (u ∉ e.readBy)
      | none => true) &&
    (match q.cursorOr with
      | some c => evalCursorCond c e
      | none => true)

/-- The sort of `buildPaginationSort`: ascending `{published: 1, _id: 1}` when
a (truthy) `before` cursor is given, descending `{published: -1, _id: -1}`
otherwise. -/
def buildPaginationSort (before : Option String) : Bool :=
  (jsStr before).isSome

/-- The ascending sort order `{ published: 1, _id: 1 }`. -/
def timelineAscLe (a b : StoredItem) : Prop :=
  a.published < b.published ∨ (a.published = b.published ∧ a.oid ≤ b.oid)

instance : DecidableRel timelineAscLe := fun a b => by
  unfold timelineAscLe; infer_instance

instance : IsTotal StoredItem timelineAscLe :=
  ⟨by intro a b; unfold timelineAscLe; omega⟩

instance : IsTrans StoredItem timelineAscLe :=
  ⟨by intro a b c; unfold timelineAscLe; omega⟩

/-- The pagination limits (`DEFAULT_LIMIT`, `MAX_LIMIT`, `parseLimit`);
`parseInt` of a missing value is `NaN`, hence the default. -/
def DEFAULT_LIMIT : Nat := 20

def MAX_LIMIT : Nat := 100

def parseLimit (limit : Option Int) : Nat :=
  match limit with
  | none => DEFAULT_LIMIT
  | some n => if n < 1 then DEFAULT_LIMIT else min n.toNat MAX_LIMIT

/-! ### The jf2 transform (`transformToJf2` and its helpers) -/

/-- A normalized jf2 author (`photo` reduced to a URL string). -/
structure Jf2Author where
  name : Option String
  url : Option String
  photo : Option String
deriving Repr, DecidableEq

/-- A timeline item in jf2 form.  `oid` is the stringified `_id`;
list-valued fields use `[]` where the source omits the key. -/
structure Jf2Item where
  type : String
  uid : String
  url : Option String
  published : Int
  oid : Nat
  isRead : Bool
  name : Option String
  content : Option JsContent
  summary : Option String
  updated : Option Int
  author : Option Jf2Author
  category : List String
  photo : List String
  video : List String
  audio : List String
  likeOf : List String
  repostOf : List String
  bookmarkOf : List String
  inReplyTo : List String
  source : Option JsSource
deriving Repr, DecidableEq

/-- JS `a || b` on optional strings: skips `undefined` and `""`. -/
def jsOrStr (a b : Option String) : Option String :=
  match a with
  | some s => if s = "" then b else some s
  | none => b

/-- Extract a URL string from a media value (`extractMediaUrl`). -/
def extractMediaUrl : MediaVal → Option String
  | .str s => some s
  | .obj value url src => jsOrStr value (jsOrStr url src)

/-- Normalize a media array to URL strings (`normalizeMediaArray`):
`.map(extractMediaUrl).filter(Boolean)`. -/
def normalizeMediaArray (l : List MediaVal) : List String :=
  (l.filterMap extractMediaUrl).filter fun s => decide (s ≠ "")

/-- Normalize the author (`normalizeAuthor`). -/
def normalizeAuthor (a : JsAuthor) : Jf2Author :=
  { name := a.name, url := a.url, photo := a.photo.bind extractMediaUrl }

/-- First `src="…"`-or-`src='…'` value inside one `<img` tag fragment
(approximation of the source's `<img[^>]+src=["']([^"']+)["']` regex). -/
def imgSrcOf (seg : String) : Option String :=
  let tag := (splitOnStr seg ">").headD seg
  let fromQuote : String → Option String := fun q =>
    match splitOnStr tag ("src=" ++ q) with
    | _ :: rest :: _ =>
      match (splitOnStr rest q).head? with
      | some u => if u = "" then none else some u
      | none => none
    | _ => none
  match fromQuote "\"" with
  | some u => some u
  | none => fromQuote singleQuote

/-- Image URLs mentioned in HTML content (`extractImagesFromHtml`),
deduplicated in order of appearance. -/
def extractImagesFromHtml (html : String) : List String :=
  (((splitOnStr html "<img").drop 1).filterMap imgSrcOf).foldl
    (fun acc u => if u ∈ acc then acc else acc ++ [u]) []

/-- Transform a stored document to a jf2 item (`transformToJf2`).  `_is_read`
is membership of the (truthy) user in `readBy`; when no explicit `photo`
values survive normalization, images are pulled out of the HTML content. -/
def transformToJf2 (userId : Option String) (e : StoredItem) : Jf2Item :=
  let photos := normalizeMediaArray e.photo
  let photos :=
    if photos = [] then
      match e.content with
      | some c =>
        match c.html with
        | some h => extractImagesFromHtml h
        | none => []
      | none => []
    else photos
  { type := e.type
    uid := e.uid
    url := e.url
    published := e.published
    oid := e.oid
    isRead := match userId with
      | some u => decide (u ∈ e.readBy)
      | none => false
    name := e.name
    content := e.content
    summary := e.summary
    updated := e.updated
    author := e.author.map normalizeAuthor
    category := e.category
    photo := photos
    video := normalizeMediaArray e.video
    audio := normalizeMediaArray e.audio
    likeOf := e.likeOf
    repostOf := e.repostOf
    bookmarkOf := e.bookmarkOf
    inReplyTo := e.inReplyTo
    source := e.source }

/-- The `paging` object. -/
structure Paging where
  before : Option String
  after : Option String
deriving Repr, DecidableEq

/-- Generate the paging cursors (`generatePagingCursors`).  With a truthy
`before` the function reverses its own (local) array before reading off the
endpoints; the caller's already-transformed jf2 list is unaffected.  The
`limit` argument is unused, as in the source. -/
def generatePagingCursors (items : List StoredItem) (_limit : Nat) (hasMore : Bool)
    (before : Option String) : Paging :=
  if items = [] then { before := none, after := none }
  else if (jsStr before).isSome then
    let rev := items.reverse
    { after := rev.getLast?.map fun e => encodeCursor e.published e.oid
      before := if hasMore then rev.head?.map (fun e => encodeCursor e.published e.oid) else none }
  else
    { after := if hasMore then items.getLast?.map (fun e => encodeCursor e.published e.oid) else none
      before := items.head?.map fun e => encodeCursor e.published e.oid }

/-- A timeline page. -/
structure Timeline where
  items : List Jf2Item
  paging : Paging
deriving Repr, DecidableEq

/-- The timeline query (`getTimelineItems`).  `none` models the exception a
malformed-but-decodable cursor id raises through `new ObjectId`.  Note,
faithful to the source: `transformToJf2` is mapped over the page BEFORE
`generatePagingCursors` reverses its local array, so with a `before` cursor
the returned items keep the ascending retrieval order. -/
def getTimelineItems (store : List StoredItem) (channelId : Nat)
    (before after : Option String) (limit : Option Int) (userId : Option String)
    (showRead : Bool) : Option Timeline :=
  let lim := parseLimit limit
  let base : TimelineQuery :=
    { channelId := channelId
      readByNe := match jsStr userId with
        | some u => if showRead then none else some u
        | none => none
      cursorOr := none }
  (buildPaginationQuery before after base).map fun query =>
    let matching := store.filter (evalTimelineQuery query)
    let sorted :=
      if buildPaginationSort before then List.insertionSort timelineAscLe matching
      else List.insertionSort timelineDescLe matching
    let fetched := sorted.take (lim + 1)
    let hasMore := decide (fetched.length > lim)
    let page := if hasMore then fetched.take lim else fetched
    let jf2Items := page.map (transformToJf2 (jsStr userId))
    let paging := generatePagingCursors page lim hasMore before
    { items := jf2Items, paging := paging }

/-! ## Feed processing: `src/lib/polling/processor.js`

The HTTP fetch and parse (`fetchAndParseFeed`) is I/O; its outcome is a
parameter.  The channel's filter check (`passesTypeFilter` and
`passesRegexFilter` on `channel?.settings`) is abstracted to a `passes`
predicate — the claims settled here are independent of the filter rules. -/

/-- A feed's WebSub subdocument. -/
structure FeedWebsub where
  hub : Option String
  topic : Option String
  secret : Option String
deriving Repr, DecidableEq

/-- One document of the `microsub_feeds` collection (fields the processor and
push handler read or write). -/
structure Feed where
  oid : Nat
  channelId : Nat
  url : String
  tier : Int
  unmodified : Option Int
  nextFetchAt : Option Int
  etag : Option String
  lastModified : Option String
  title : Option String
  photo : Option String
  websub : Option FeedWebsub
  lastError : Option String
  lastErrorAt : Option Int
deriving Repr, DecidableEq

/-- The parsed feed produced by `fetchAndParseFeed`/`parseFeed`. -/
structure ParsedFeed where
  items : List NormItem
  name : Option String
  photo : Option String
  etag : Option String
  lastModified : Option String
  hub : Option String
  self : Option String
deriving Repr, DecidableEq

/-- Outcome of `fetchAndParseFeed(feed.url, …)`: a 304, a parsed body, or a
thrown fetch/parse error. -/
inductive FetchOutcome where
  | notModified
  | fetched (parsed : ParsedFeed)
  | failure (message : String)
deriving Repr, DecidableEq

/-- Result of one `processFeed` run: the updated feed document (as persisted
by `updateFeedAfterFetch`/`updateFeedWebsub`), the updated item store, and the
`success`/`itemsAdded` fields of the returned result object. -/
structure ProcessResult where
  feed : Feed
  store : List StoredItem × Nat
  success : Bool
  itemsAdded : Nat
deriving Repr, DecidableEq

/-- Process one feed (`processFeed`).  Steps: handle 304; insert the parsed
items through `addItem` counting the insertions; run `calculateNewTier` and
persist tier/unmodified/nextFetchAt (plus validators and discovered
title/photo); on a hub discovery replace the `websub` subdocument with
`{hub, topic}` (`updateFeedWebsub`); on a thrown error run the tier update on
a pre-incremented counter and push the tier one step higher, bounded at 10. -/
def processFeed (feed : Feed) (store : List StoredItem × Nat)
    (outcome : FetchOutcome) (passes : NormItem → Bool) (now : Int) : ProcessResult :=
  match outcome with
  | .notModified =>
    let tierResult := calculateNewTier feed.tier false (feed.unmodified.getD 0) now
    { feed := { feed with
        tier := tierResult.tier
        unmodified := some tierResult.consecutiveUnchanged
        nextFetchAt := some tierResult.nextFetchAt }
      store := store
      success := true
      itemsAdded := 0 }
  | .fetched parsed =>
    let step := parsed.items.foldl
      (fun (acc : (List StoredItem × Nat) × Nat) item =>
        if passes item then
          let r := addItem acc.1.1 acc.1.2 feed.channelId (some feed.oid) item.uid item now
          (r.1, acc.2 + (if r.2.isSome then 1 else 0))
        else acc)
      (store, 0)
    let newItemCount := step.2
    let tierResult := calculateNewTier feed.tier (newItemCount > 0)
      (if newItemCount > 0 then 0 else feed.unmodified.getD 0) now
    let feed1 := { feed with
      tier := tierResult.tier
      unmodified := some tierResult.consecutiveUnchanged
      nextFetchAt := some tierResult.nextFetchAt
      etag := parsed.etag
      lastModified := parsed.lastModified
      title := if parsed.name.isSome ∧ feed.title = none then parsed.name else feed.title
      photo := if parsed.photo.isSome ∧ feed.photo = none then parsed.photo else feed.photo }
    let newWebsub : FeedWebsub :=
      { hub := parsed.hub
        topic := some ((jsStr parsed.self).getD feed.url)
        secret := none }
    let feed2 :=
      if parsed.hub.isSome ∧ (feed.websub.bind (·.hub)) ≠ parsed.hub then
        { feed1 with websub := some newWebsub }
      else feed1
    { feed := feed2, store := step.1, success := true, itemsAdded := newItemCount }
  | .failure message =>
    let tierResult := calculateNewTier feed.tier false ((feed.unmodified.getD 0) + 1) now
    { feed := { feed with
        tier := min (tierResult.tier + 1) 10
        unmodified := some tierResult.consecutiveUnchanged
        nextFetchAt := some tierResult.nextFetchAt
        lastError := some message
        lastErrorAt := some now }
      store := store
      success := false
      itemsAdded := 0 }

/-! ## WebSub push: `src/lib/websub/handler.js` and the subscriber's
`verifySignature` -/

/-- Background processing of a pushed body (`processWebsubContent`).
`parseFeed` of the raw body is I/O-free but large; its outcome is the
`parsedPush` parameter (`none` = the parse threw, caught and logged).  On
success the handler calls `processFeed({...feed, _websubContent: parsed})` —
but `processFeed` never reads `_websubContent`: it re-fetches `feed.url`, so
the same fetch-outcome parameter drives it exactly as in a scheduled poll. -/
def processWebsubContent (feed : Feed) (store : List StoredItem × Nat)
    (parsedPush : Option ParsedFeed) (outcome : FetchOutcome)
    (passes : NormItem → Bool) (now : Int) : Feed × (List StoredItem × Nat) :=
  match parsedPush with
  | none => (feed, store)
  | some _ =>
    let r := processFeed feed store outcome passes now
    (r.feed, r.store)

/-- Hex digit value. -/
def hexVal (c : Char) : Option Nat :=
  let n := c.toNat
  if 48 ≤ n ∧ n ≤ 57 then some (n - 48)
  else if 97 ≤ n ∧ n ≤ 102 then some (n - 97 + 10)
  else if 65 ≤ n ∧ n ≤ 70 then some (n - 65 + 10)
  else none

/-- The `Buffer.from(hex, "hex")` decoder: consumes hex pairs, stopping at
the first invalid pair. -/
def hexDecode : List Char → List Nat
  | a :: b :: rest =>
    match hexVal a, hexVal b with
    | some ha, some hb => (ha * 16 + hb) :: hexDecode rest
    | _, _ => []
  | _ => []

/-- The HMAC itself is cryptographic I/O for this model: an oracle mapping
(algorithm, secret, body) to a hex digest, `none` when `createHmac` throws on
an unsupported algorithm name. -/
def HmacOracle : Type := String → String → String → Option String

/-- Verify an `X-Hub-Signature` value (`verifySignature` in the WebSub
subscriber).  Split at `=`; reject falsy parts; compute the expected digest;
compare the decoded bytes (`crypto.timingSafeEqual` throws on a length
mismatch, caught as `false`). -/
def verifySignature (hmac : HmacOracle) (signature body secret : String) : Bool :=
  if signature = "" ∨ secret = "" then false
  else
    match splitOnStr signature "=" with
    | algorithm :: hash :: _ =>
      if algorithm = "" ∨ hash = "" then false
      else
        match hmac (toLowerAscii algorithm) secret body with
        | none => false
        | some expectedHash =>
          let hb := hexDecode hash.toList
          let eb := hexDecode expectedHash.toList
          decide (hb.length = eb.length) && decide (hb = eb)
    | _ => false

/-- The POST callback (`receive`): status code and resulting item store.
`feed` is the `getFeedBySubscriptionId` result; the two signature headers are
separate parameters combined with JS `||`; `rawBody` is the raw request body
string.  On acknowledgment (200) the background `processWebsubContent` runs
with its parameters. -/
def receiveWebsubPost (feed : Option Feed) (sig256 sig1 : Option String)
    (rawBody : String) (hmac : HmacOracle) (store : List StoredItem × Nat)
    (parsedPush : Option ParsedFeed) (outcome : FetchOutcome)
    (passes : NormItem → Bool) (now : Int) : Nat × (List StoredItem × Nat) :=
  match feed with
  | none => (404, store)
  | some f =>
    let processed := fun _ : Unit =>
      (200, (processWebsubContent f store parsedPush outcome passes now).2)
    match f.websub.bind (·.secret) with
    | some secret =>
      if secret = "" then processed ()  -- falsy secret: `if (feed.websub?.secret)` skips verification
      else
        match jsOrStr sig256 sig1 with
        | none => (401, store)  -- missing signature
        | some signature =>
          if verifySignature hmac signature rawBody secret then processed ()
          else (401, store)   -- invalid signature
    | none => processed ()

/-! ## Spec-side comparison definitions and concrete fixtures -/

/-- Modelled from the spec (§4.5, claim C9): the tier the no-new-items rule
produces from `(t, u)` — counter `u+1`, tier `min(10, t+1)` once
`u+1 ≥ max(2,t)`. -/
def specNoNewItemsTier (t u : Int) : Int :=
  if u + 1 ≥ max 2 t ∧ t < 10 then min 10 (t + 1) else t

/-- Modelled from the spec (claim C9's error formula): one step beyond the
no-new-items rule, bounded at 10. -/
def specErrorTierClaim (t u : Int) : Int :=
  min 10 (specNoNewItemsTier t u + 1)

/-- A well-formed base64url-encoded JSON cursor, per claim C10: a string whose
decoding yields a cursor with a valid timestamp and a present id. -/
def wellFormedCursorString (c : String) : Prop :=
  ∃ cur, decodeCursor c = some cur ∧ cur.timestamp ≠ none ∧ cur.id ≠ none

instance (c : String) : Decidable (wellFormedCursorString c) := by
  unfold wellFormedCursorString
  exact decidable_of_iff
    ((decodeCursor c).any fun cur => cur.timestamp.isSome && cur.id.isSome)
    (by cases h : decodeCursor c <;> simp [Option.isSome_iff_ne_none])

/-- A minimal stored document for concrete test stores. -/
def blankItem (oid channelId : Nat) (uid : String) (published : Int) : StoredItem :=
  { oid := oid, channelId := channelId, feedId := none, uid := uid
    type := "entry", url := none, name := none, content := none, summary := none
    published := published, updated := none, author := none, category := []
    photo := [], video := [], audio := [], likeOf := [], repostOf := []
    bookmarkOf := [], inReplyTo := [], source := none, readBy := []
    createdAt := 0, stripped := false }

/-- A minimal normalized item for concrete feeds. -/
def blankNorm (uid : String) : NormItem :=
  { uid := uid, type := none, url := none, name := none, content := none
    summary := none, published := none, updated := none, author := none
    category := none, photo := none, video := none, audio := none
    likeOf := none, repostOf := none, bookmarkOf := none, inReplyTo := none
    source := none }

/-- A minimal feed document for concrete runs. -/
def blankFeed (oid channelId : Nat) (url : String) (tier : Int)
    (unmodified : Option Int) : Feed :=
  { oid := oid, channelId := channelId, url := url, tier := tier
    unmodified := unmodified, nextFetchAt := none, etag := none
    lastModified := none, title := none, photo := none, websub := none
    lastError := none, lastErrorAt := none }

/-- Concrete store for the C3 evaluation: two items of channel 7,
the older one first. -/
def c3Store : List StoredItem :=
  [blankItem 1 7 "older" 1000, blankItem 2 7 "newer" 2000]

/-- The C3 `before` cursor: `base64url of the JSON text (braces elided here)
"t":500,"i":"0"` — both items are strictly newer than it. -/
def c3BeforeCursor : String := "eyJ0Ijo1MDAsImkiOiIwIn0"

/-- Concrete store for the C4 counterexample: 201 unread items in channel 0
with uids `"0" … "200"`. -/
def c4Store : List StoredItem :=
  (List.range 201).map fun j => blankItem j 0 (toString j) (j : Int)

/-- The C4 entry list: every uid, no `"last-read-entry"` sentinel. -/
def c4EntryIds : List String :=
  (List.range 201).map fun j => toString j

/-- A parsed feed with no items (for concrete WebSub runs). -/
def emptyParsed : ParsedFeed :=
  { items := [], name := none, photo := none, etag := none
    lastModified := none, hub := none, self := none }

/-- A parsed feed with one fresh item (for concrete WebSub runs). -/
def pushParsed : ParsedFeed :=
  { emptyParsed with items := [blankNorm "x"] }

/-- A stripped skeleton read only by another user (for the C8
counterexample). -/
def c8Item : StoredItem :=
  { blankItem 1 3 "u" 0 with stripped := true, readBy := ["alice"] }

/-- A one-channel store with two distinct timestamps (for the C10
counterexample). -/
def c10Store : List StoredItem :=
  [blankItem 1 1 "a" 1000, blankItem 2 1 "b" 2000]

/-! ## Theorems -/

/-! ### C2: the tier-adjustment rule -/

/-- Evaluation of `calculateNewTier` with new items. -/
theorem calculateNewTier_true_eq (t u now : Int) :
    calculateNewTier t true u now =
      { tier := if t > MIN_TIER then t - 1 else t
        consecutiveUnchanged := 0
        nextFetchAt := getNextFetchTime now (if t > MIN_TIER then t - 1 else t) } := rfl

/-- Evaluation of `calculateNewTier` without new items. -/
theorem calculateNewTier_false_eq (t u now : Int) :
    calculateNewTier t false u now =
      if u + 1 ≥ max 2 t ∧ t < MAX_TIER then
        { tier := t + 1, consecutiveUnchanged := 0, nextFetchAt := getNextFetchTime now (t + 1) }
      else
        { tier := t, consecutiveUnchanged := u + 1, nextFetchAt := getNextFetchTime now t } := by
  simp only [calculateNewTier]
  split_ifs with h1 h2 <;> simp_all

/-- C2 (amended): for every tier `t ∈ [0..10]` and counter `u ≥ 0`: with new
items the tier becomes `max(0, t-1)` and the counter resets; without new
items the counter becomes `u+1` and, when `u+1 ≥ max(2,t)` AND `t < 10`, the
tier becomes `t+1` with the counter reset — at `t = 10` the threshold no
longer resets the counter (this is the correction to the claim).  In every
case `nextFetchAt = now + 2^tier·60000 ms` with the result tier clamped to
`[0..10]`. -/
theorem calculateNewTier_adjustment_rule (t u now : Int) (hasNew : Bool)
    (ht0 : 0 ≤ t) (ht10 : t ≤ 10) (hu : 0 ≤ u) :
    (hasNew = true →
      (calculateNewTier t hasNew u now).tier = max 0 (t - 1) ∧
      (calculateNewTier t hasNew u now).consecutiveUnchanged = 0) ∧
    (hasNew = false →
      (u + 1 ≥ max 2 t ∧ t < 10 →
        (calculateNewTier t hasNew u now).tier = min 10 (t + 1) ∧
        (calculateNewTier t hasNew u now).consecutiveUnchanged = 0) ∧
      (¬(u + 1 ≥ max 2 t ∧ t < 10) →
        (calculateNewTier t hasNew u now).tier = t ∧
        (calculateNewTier t hasNew u now).consecutiveUnchanged = u + 1)) ∧
    (calculateNewTier t hasNew u now).nextFetchAt =
      now + 2 ^ (max 0 (min 10 (calculateNewTier t hasNew u now).tier)).toNat * 60 * 1000 := by
  refine ⟨fun hN => ?_, fun hN => ?_, ?_⟩
  · subst hN
    rw [calculateNewTier_true_eq]
    refine ⟨?_, rfl⟩
    dsimp only
    split_ifs with h <;> simp only [MIN_TIER] at h <;> omega
  · subst hN
    rw [calculateNewTier_false_eq]
    constructor
    · intro hc
      rw [if_pos ⟨hc.1, by simpa [MAX_TIER] using hc.2⟩]
      exact ⟨by dsimp only; omega, rfl⟩
    · intro hc
      rw [if_neg (by simpa [MAX_TIER] using hc)]
      exact ⟨rfl, rfl⟩
  · cases hasNew
    · rw [calculateNewTier_false_eq]
      split_ifs <;> simp [getNextFetchTime, getIntervalForTier, MIN_TIER, MAX_TIER]
    · rw [calculateNewTier_true_eq]
      split_ifs <;> simp [getNextFetchTime, getIntervalForTier, MIN_TIER, MAX_TIER]

/-- Witness for C2's theorem at `t = 3`, `u = 0`, no new items: the tier
stays 3 and the counter becomes 1. -/
theorem calculateNewTier_adjustment_rule_witness :
    (calculateNewTier 3 false 0 0).tier = 3 ∧
    (calculateNewTier 3 false 0 0).consecutiveUnchanged = 0 + 1 := by
  have h := calculateNewTier_adjustment_rule 3 0 0 false
    (by decide) (by decide) (by decide)
  exact (h.2.1 rfl).2 (by decide)

/-- Counterexample for C2 as stated: at `t = 10`, `u = 9`, no new items, the
claim's premise `u+1 ≥ max(2,t)` holds, so the claim demands the counter be
reset to 0; the code leaves it at 10. -/
theorem calculateNewTier_tier_ten_counter_cex :
    (9 + 1 ≥ max 2 (10 : Int)) ∧
    (calculateNewTier 10 false 9 0).consecutiveUnchanged = 10 ∧
    (calculateNewTier 10 false 9 0).consecutiveUnchanged ≠ 0 := by decide

/-! ### C1: dedup helper lemmas -/

theorem hasKey_iff_countKey_pos (store : List StoredItem) (ch : Nat) (uid : String) :
    hasKey store ch uid ↔ 0 < countKey store ch uid := by
  unfold hasKey countKey
  rw [List.countP_pos]
  simp

theorem addItem_of_hasKey (store : List StoredItem) (nextOid ch : Nat)
    (fid : Option Nat) (uid : String) (item : NormItem) (now : Int)
    (h : hasKey store ch uid) :
    addItem store nextOid ch fid uid item now = ((store, nextOid), none) := by
  unfold addItem
  rw [if_pos h]

theorem addItem_store_of_not_hasKey (store : List StoredItem) (nextOid ch : Nat)
    (fid : Option Nat) (uid : String) (item : NormItem) (now : Int)
    (h : ¬ hasKey store ch uid) :
    ∃ doc, (addItem store nextOid ch fid uid item now).1.1 = store ++ [doc] ∧
      doc.channelId = ch ∧ doc.uid = uid := by
  unfold addItem
  rw [if_neg h]
  exact ⟨_, rfl, rfl, rfl⟩

theorem countKey_addItem_self (store : List StoredItem) (nextOid ch : Nat)
    (fid : Option Nat) (uid : String) (item : NormItem) (now : Int)
    (h0 : countKey store ch uid = 0) :
    countKey (addItem store nextOid ch fid uid item now).1.1 ch uid = 1 := by
  have hnk : ¬ hasKey store ch uid := by
    rw [hasKey_iff_countKey_pos, h0]; omega
  obtain ⟨doc, heq, hch, huid⟩ :=
    addItem_store_of_not_hasKey store nextOid ch fid uid item now hnk
  rw [heq]
  unfold countKey at h0 ⊢
  rw [List.countP_append, h0]
  simp [hch, huid]

theorem countKey_addItem_of_ne (store : List StoredItem) (nextOid ch : Nat)
    (fid : Option Nat) (uid : String) (item : NormItem) (now : Int)
    (ch2 : Nat) (uid2 : String) (hne : ¬(ch2 = ch ∧ uid2 = uid)) :
    countKey (addItem store nextOid ch fid uid item now).1.1 ch2 uid2 =
      countKey store ch2 uid2 := by
  by_cases h : hasKey store ch uid
  · rw [addItem_of_hasKey store nextOid ch fid uid item now h]
  · obtain ⟨doc, heq, hch, huid⟩ :=
      addItem_store_of_not_hasKey store nextOid ch fid uid item now h
    rw [heq]
    unfold countKey
    rw [List.countP_append]
    have hsingle : List.countP (fun e => decide (e.channelId = ch2 ∧ e.uid = uid2)) [doc] = 0 := by
      have hdoc : (decide (doc.channelId = ch2 ∧ doc.uid = uid2)) = false := by
        simp only [decide_eq_false_iff_not]
        rintro ⟨h1, h2⟩
        exact hne ⟨by omega, by rw [← h2, huid]⟩
      simp only [List.countP_cons, List.countP_nil, hdoc]
      simp
    rw [hsingle]
    omega

theorem hasKey_addItem_self (store : List StoredItem) (nextOid ch : Nat)
    (fid : Option Nat) (uid : String) (item : NormItem) (now : Int) :
    hasKey (addItem store nextOid ch fid uid item now).1.1 ch uid := by
  by_cases h : hasKey store ch uid
  · rw [addItem_of_hasKey store nextOid ch fid uid item now h]; exact h
  · obtain ⟨doc, heq, hch, huid⟩ :=
      addItem_store_of_not_hasKey store nextOid ch fid uid item now h
    rw [heq]
    exact ⟨doc, by simp, hch, huid⟩

theorem hasKey_addItem_mono (store : List StoredItem) (nextOid ch : Nat)
    (fid : Option Nat) (uid : String) (item : NormItem) (now : Int)
    (ch2 : Nat) (uid2 : String) (h : hasKey store ch2 uid2) :
    hasKey (addItem store nextOid ch fid uid item now).1.1 ch2 uid2 := by
  by_cases hk : hasKey store ch uid
  · rw [addItem_of_hasKey store nextOid ch fid uid item now hk]; exact h
  · obtain ⟨doc, heq, _, _⟩ :=
      addItem_store_of_not_hasKey store nextOid ch fid uid item now hk
    obtain ⟨e, he, h1, h2⟩ := h
    exact ⟨e, by rw [heq]; exact List.mem_append_left _ he, h1, h2⟩

/-- Once a key is present, one ingestion pass neither duplicates it nor
removes it. -/
theorem countKey_ingestFeed_of_hasKey (items : List NormItem)
    (s : List StoredItem × Nat) (ch : Nat) (fid : Option Nat) (now : Int)
    (uid : String) (h : hasKey s.1 ch uid) :
    countKey (ingestFeed s ch fid items now).1 ch uid = countKey s.1 ch uid ∧
      hasKey (ingestFeed s ch fid items now).1 ch uid := by
  induction items generalizing s with
  | nil => exact ⟨rfl, h⟩
  | cons i rest ih =>
    simp only [ingestFeed, List.foldl_cons]
    by_cases hiu : i.uid = uid
    · subst hiu
      rw [addItem_of_hasKey s.1 s.2 ch fid i.uid i now h]
      exact ih s h
    · have hcnt := countKey_addItem_of_ne s.1 s.2 ch fid i.uid i now ch uid
        (by rintro ⟨_, h2⟩; exact hiu h2.symm)
      have hk := hasKey_addItem_mono s.1 s.2 ch fid i.uid i now ch uid h
      have := ih (addItem s.1 s.2 ch fid i.uid i now).1 hk
      rw [ingestFeed] at this
      exact ⟨by rw [this.1, hcnt], this.2⟩

/-- A fresh key present in the feed is present exactly once after one
ingestion pass. -/
theorem countKey_ingestFeed_fresh (items : List NormItem)
    (s : List StoredItem × Nat) (ch : Nat) (fid : Option Nat) (now : Int)
    (uid : String) (h0 : countKey s.1 ch uid = 0)
    (hmem : uid ∈ items.map NormItem.uid) :
    countKey (ingestFeed s ch fid items now).1 ch uid = 1 := by
  induction items generalizing s with
  | nil => simp at hmem
  | cons i rest ih =>
    simp only [ingestFeed, List.foldl_cons]
    by_cases hiu : i.uid = uid
    · subst hiu
      have h1 := countKey_addItem_self s.1 s.2 ch fid i.uid i now h0
      have hk := hasKey_addItem_self s.1 s.2 ch fid i.uid i now
      have := countKey_ingestFeed_of_hasKey rest
        (addItem s.1 s.2 ch fid i.uid i now).1 ch fid now i.uid hk
      rw [ingestFeed] at this
      rw [this.1, h1]
    · have hcnt := countKey_addItem_of_ne s.1 s.2 ch fid i.uid i now ch uid
        (by rintro ⟨_, h2⟩; exact hiu h2.symm)
      have hmem2 : uid ∈ rest.map NormItem.uid := by
        simp only [List.map_cons, List.mem_cons] at hmem
        rcases hmem with h | h
        · exact absurd h.symm hiu
        · exact h
      have := ih (addItem s.1 s.2 ch fid i.uid i now).1 (by rw [hcnt]; exact h0) hmem2
      rw [ingestFeed] at this
      exact this

theorem ingestTimes_succ (n : Nat) (s : List StoredItem × Nat) (ch : Nat)
    (fid : Option Nat) (items : List NormItem) (now : Int) :
    ingestTimes (n + 1) s ch fid items now =
      ingestFeed (ingestTimes n s ch fid items now) ch fid items now := by
  unfold ingestTimes
  rw [Function.iterate_succ_apply']

/-! ### C1: the claim theorem -/

/-- C1: `addItem` is an idempotent no-op on duplicates.  (a) Whenever a
document with the same `(channel, uid)` key is already present — a stripped
skeleton included, since the probe ignores `_stripped` — `addItem` returns
"no new record" and leaves the collection unchanged.  (b) Ingesting the same
feed `n ≥ 1` times yields exactly one persisted record per item uid that was
fresh at the start. -/
theorem addItem_duplicate_noop_and_single_record :
    (∀ (store : List StoredItem) (nextOid ch : Nat) (fid : Option Nat)
        (uid : String) (item : NormItem) (now : Int),
      hasKey store ch uid →
        addItem store nextOid ch fid uid item now = ((store, nextOid), none)) ∧
    (∀ (s : List StoredItem × Nat) (ch : Nat) (fid : Option Nat)
        (items : List NormItem) (now : Int) (n : Nat) (uid : String),
      1 ≤ n → uid ∈ items.map NormItem.uid → countKey s.1 ch uid = 0 →
        countKey (ingestTimes n s ch fid items now).1 ch uid = 1) := by
  constructor
  · exact addItem_of_hasKey
  · intro s ch fid items now n uid hn hmem h0
    induction n with
    | zero => omega
    | succ m ih =>
      by_cases hm : 1 ≤ m
      · have h1 := ih hm
        have hk : hasKey (ingestTimes m s ch fid items now).1 ch uid := by
          rw [hasKey_iff_countKey_pos, h1]; omega
        rw [ingestTimes_succ]
        rw [(countKey_ingestFeed_of_hasKey items
          (ingestTimes m s ch fid items now) ch fid now uid hk).1, h1]
      · have hm0 : m = 0 := by omega
        subst hm0
        rw [ingestTimes_succ]
        have h00 : ingestTimes 0 s ch fid items now = s := rfl
        rw [h00]
        exact countKey_ingestFeed_fresh items s ch fid now uid h0 hmem

/-- Witness for C1 at concrete inputs: a duplicate insert into a one-item
store is a no-op, and ingesting a one-item feed twice leaves exactly one
record. -/
theorem addItem_duplicate_noop_and_single_record_witness :
    addItem [blankItem 0 5 "a" 0] 1 5 none "a" (blankNorm "a") 0 =
      (([blankItem 0 5 "a" 0], 1), none) ∧
    countKey (ingestTimes 2 ([], 0) 5 none [blankNorm "a"] 0).1 5 "a" = 1 := by
  constructor
  · exact addItem_duplicate_noop_and_single_record.1 _ _ _ _ _ _ _ (by decide)
  · exact addItem_duplicate_noop_and_single_record.2 ([], 0) 5 none
      [blankNorm "a"] 0 2 "a" (by decide) (by decide) (by decide)

/-! ### C9: the error path of the processor -/

/-- C9 (amended): on a fetch/parse error the processor runs the
no-new-items rule with the unmodified counter already incremented once
(`consecutiveUnchanged: (feed.unmodified || 0) + 1`) and then raises the
resulting tier one more step, bounded at 10.  In closed form: the persisted
tier is `min(10, t+2)` when `u+2 ≥ max(2,t)` and `t < 10`, else
`min(10, t+1)` — one step more than the claim's formula whenever the extra
pre-increment crosses the threshold.  The item store is untouched. -/
theorem processFeed_error_tier_formula (feed : Feed) (store : List StoredItem × Nat)
    (message : String) (passes : NormItem → Bool) (now : Int)
    (ht0 : 0 ≤ feed.tier) :
    (processFeed feed store (.failure message) passes now).feed.tier =
      (if feed.unmodified.getD 0 + 2 ≥ max 2 feed.tier ∧ feed.tier < 10
       then min 10 (feed.tier + 2) else min 10 (feed.tier + 1)) ∧
    (processFeed feed store (.failure message) passes now).store = store := by
  constructor
  · simp only [processFeed, calculateNewTier_false_eq, MAX_TIER]
    split_ifs with h1 h2 h3 <;> dsimp only <;> omega
  · rfl

/-- Witness for C9's theorem at a concrete feed (tier 3, unmodified 1). -/
theorem processFeed_error_tier_formula_witness :
    (processFeed (blankFeed 1 0 "u" 3 (some 1)) ([], 0) (.failure "x")
        (fun _ => true) 0).store = ([], 0) :=
  (processFeed_error_tier_formula (blankFeed 1 0 "u" 3 (some 1)) ([], 0) "x"
    (fun _ => true) 0 (by decide)).2

/-- Counterexample for C9 as stated: at `(t, u) = (3, 1)` the spec's formula
`min(10, t'+1)` — `t'` the §4.5 no-new-items tier from `(3, 1)` — gives 4,
but the code persists tier 5. -/
theorem processFeed_error_tier_cex :
    (processFeed (blankFeed 1 0 "u" 3 (some 1)) ([], 0) (.failure "boom")
        (fun _ => true) 0).feed.tier = 5 ∧
    specErrorTierClaim 3 1 = 4 ∧ (5 : Int) ≠ 4 := by decide

/-! ### C5: the WebSub push path and the tier -/

/-- C5 (amended): processing a WebSub content push runs the very same
`processFeed` pipeline as a scheduled poll (the pushed body is parsed but then
ignored — `_websubContent` is never read; the feed URL is fetched again), so
the feed's tier is updated by the normal §4.5 rule and is not in general
preserved.  The closed form is shown for the 304 outcome. -/
theorem websub_push_tier_follows_poll_rule (feed : Feed)
    (store : List StoredItem × Nat) (parsed : ParsedFeed)
    (outcome : FetchOutcome) (passes : NormItem → Bool) (now : Int) :
    processWebsubContent feed store (some parsed) outcome passes now =
      ((processFeed feed store outcome passes now).feed,
        (processFeed feed store outcome passes now).store) ∧
    (outcome = .notModified →
      (processWebsubContent feed store (some parsed) outcome passes now).1.tier =
        (if feed.unmodified.getD 0 + 1 ≥ max 2 feed.tier ∧ feed.tier < 10
         then feed.tier + 1 else feed.tier)) := by
  refine ⟨rfl, ?_⟩
  rintro rfl
  simp only [processWebsubContent, processFeed, calculateNewTier_false_eq, MAX_TIER]
  split_ifs with h1 h2 h3 <;> dsimp only <;> omega

/-- Witness for C5's theorem: a push on a feed at tier 5 with `unmodified = 0`
whose re-fetch returns 304 keeps tier 5 (threshold not reached). -/
theorem websub_push_tier_follows_poll_rule_witness :
    (processWebsubContent (blankFeed 1 0 "u" 5 (some 0)) ([], 0)
        (some emptyParsed) .notModified (fun _ => true) 0).1.tier = 5 := by
  have h := (websub_push_tier_follows_poll_rule (blankFeed 1 0 "u" 5 (some 0))
    ([], 0) emptyParsed .notModified (fun _ => true) 0).2 rfl
  rw [h]
  decide

/-- Counterexample for C5 as stated: a push whose processing finds one new
item lowers the tier from 5 to 4 — the tier field does not keep its value. -/
theorem websub_push_changes_tier_cex :
    (blankFeed 1 0 "u" 5 (some 0)).tier = 5 ∧
    (processWebsubContent (blankFeed 1 0 "u" 5 (some 0)) ([], 0)
        (some pushParsed) (.fetched pushParsed) (fun _ => true) 0).1.tier = 4 ∧
    (4 : Int) ≠ 5 := by decide

/-! ### C6: push signature verification -/

/-- C6: for every POST callback on a feed with a (truthy) stored secret, a
missing `X-Hub-Signature-256`/`X-Hub-Signature` header, or one that fails the
constant-time HMAC comparison, yields status 401 with the item store
untouched — the background processing that persists items never runs. -/
theorem websub_receive_signature_mismatch_401
    (f : Feed) (w : FeedWebsub) (secret : String) (sig256 sig1 : Option String)
    (rawBody : String) (hmac : HmacOracle) (store : List StoredItem × Nat)
    (parsedPush : Option ParsedFeed) (outcome : FetchOutcome)
    (passes : NormItem → Bool) (now : Int)
    (hw : f.websub = some w) (hs : w.secret = some secret) (hne : secret ≠ "")
    (hbad : ∀ sg, jsOrStr sig256 sig1 = some sg →
      verifySignature hmac sg rawBody secret = false) :
    receiveWebsubPost (some f) sig256 sig1 rawBody hmac store parsedPush
        outcome passes now = (401, store) := by
  unfold receiveWebsubPost
  dsimp only
  rw [hw]
  simp only [Option.some_bind, hs]
  rw [if_neg hne]
  cases hj : jsOrStr sig256 sig1 with
  | none => rfl
  | some sg => dsimp only; rw [hbad sg hj]; rfl

/-- Witness for C6: a feed with secret `"s"`, a header `sha256=00` and an
oracle answering `ff` is rejected with 401 and an unchanged (empty) store. -/
theorem websub_receive_signature_mismatch_401_witness :
    receiveWebsubPost
        (some { blankFeed 1 0 "u" 1 none with
                websub := some { hub := none, topic := none, secret := some "s" } })
        (some "sha256=00") none "body" (fun _ _ _ => some "ff") ([], 0)
        none .notModified (fun _ => true) 0 = (401, ([], 0)) := by
  exact websub_receive_signature_mismatch_401 _
    { hub := none, topic := none, secret := some "s" } "s" _ _ _ _ _ _ _ _ _
    rfl rfl (by decide)
    (fun sg hsg => by
      simp only [jsOrStr] at hsg
      rw [if_neg (by decide : ¬("sha256=00" = ""))] at hsg
      cases hsg
      decide)

/-! ### C8: unread counts -/

/-- C8 (amended): `getUnreadCount` counts exactly the items of the channel
not read by the owner, published within the 30-day window, with the stripped
flag not true; the per-channel count inside `getChannels` counts the same
items PLUS the stripped skeletons meeting the other two conditions (its query
lacks the `_stripped` condition). -/
theorem unread_count_stripped_split (store : List StoredItem) (ch : Nat)
    (user : String) (now : Int) :
    getUnreadCount store ch user now =
      store.countP (fun e => decide (e.channelId = ch ∧ user ∉ e.readBy ∧
        now - UNREAD_RETENTION_MS ≤ e.published ∧ e.stripped ≠ true)) ∧
    channelsListUnreadCount store ch user now =
      getUnreadCount store ch user now +
        store.countP (fun e => decide (e.channelId = ch ∧ user ∉ e.readBy ∧
          now - UNREAD_RETENTION_MS ≤ e.published ∧ e.stripped = true)) := by
  refine ⟨rfl, ?_⟩
  unfold channelsListUnreadCount getUnreadCount
  induction store with
  | nil => rfl
  | cons e rest ih =>
    simp only [List.countP_cons]
    rw [ih]
    by_cases h1 : e.channelId = ch ∧ user ∉ e.readBy ∧ now - UNREAD_RETENTION_MS ≤ e.published
    · by_cases h2 : e.stripped = true
      · simp only [h1, h2]
        simp [h1, h2]
        omega
      · simp only [h1, h2]
        simp [h1, h2]
        omega
    · have d1 : decide (e.channelId = ch ∧ user ∉ e.readBy ∧
          now - UNREAD_RETENTION_MS ≤ e.published) = false := by
        simpa using h1
      have d2 : decide (e.channelId = ch ∧ user ∉ e.readBy ∧
          now - UNREAD_RETENTION_MS ≤ e.published ∧ e.stripped ≠ true) = false := by
        simp only [decide_eq_false_iff_not]
        rintro ⟨a, b, c, _⟩; exact h1 ⟨a, b, c⟩
      have d3 : decide (e.channelId = ch ∧ user ∉ e.readBy ∧
          now - UNREAD_RETENTION_MS ≤ e.published ∧ e.stripped = true) = false := by
        simp only [decide_eq_false_iff_not]
        rintro ⟨a, b, c, _⟩; exact h1 ⟨a, b, c⟩
      rw [d1, d2, d3]
      simp

/-- Counterexample for C8 as stated: a stripped skeleton published now and
read only by another user is counted by the channels-listing query (1) though
the claim requires stripped items to be excluded (`getUnreadCount` gives
0). -/
theorem channels_unread_counts_stripped_cex :
    c8Item.stripped = true ∧
    channelsListUnreadCount [c8Item] 3 "bob" 0 = 1 ∧
    getUnreadCount [c8Item] 3 "bob" 0 = 0 := by decide

/-! ### C10: undecodable cursors fail open -/

theorem jsStr_some (c : String) (h : c ≠ "") : jsStr (some c) = some c := by
  unfold jsStr
  split
  · next heq => exact absurd (by injection heq) h
  · rfl

theorem buildPaginationQuery_before_none (c : String) (base : TimelineQuery)
    (h : decodeCursor c = none) :
    buildPaginationQuery (some c) none base = some base := by
  by_cases hc : c = ""
  · subst hc; rfl
  · unfold buildPaginationQuery
    rw [jsStr_some c hc]
    dsimp only
    rw [h]

theorem jsStr_none : jsStr none = none := rfl

theorem buildPaginationQuery_after_none (c : String) (base : TimelineQuery)
    (h : decodeCursor c = none) :
    buildPaginationQuery none (some c) base = some base := by
  by_cases hc : c = ""
  · subst hc; rfl
  · unfold buildPaginationQuery
    rw [jsStr_none, jsStr_some c hc]
    dsimp only
    rw [h]

/-- C10 (amended): for every string `c` on which `decodeCursor` fails — the
base64url payload does not `JSON.parse` — the decode returns nothing without
raising, and `buildPaginationQuery` adds no cursor constraint in either
direction; an `after=c` timeline query returns exactly the page of the query
with no cursor at all.  (Correction: this extends neither to every non-cursor
string — a payload that parses as non-cursor JSON yields a degenerate cursor
object and a constraint IS applied — nor to the page of a failing `before=c`,
which still switches the retrieval to ascending order.) -/
theorem decodeCursor_fail_open (c : String) (store : List StoredItem) (ch : Nat)
    (limit : Option Int) (userId : Option String) (showRead : Bool)
    (base : TimelineQuery) (h : decodeCursor c = none) :
    buildPaginationQuery (some c) none base = some base ∧
    buildPaginationQuery none (some c) base = some base ∧
    getTimelineItems store ch none (some c) limit userId showRead =
      getTimelineItems store ch none none limit userId showRead := by
  refine ⟨buildPaginationQuery_before_none c base h,
    buildPaginationQuery_after_none c base h, ?_⟩
  simp only [getTimelineItems]
  rw [buildPaginationQuery_after_none _ _ h]
  rfl

/-- Witness for C10's theorem: `"!!!"` (no base64 alphabet characters at all)
decodes to nothing and an `after` query with it returns the no-cursor page. -/
theorem decodeCursor_fail_open_witness :
    decodeCursor "!!!" = none ∧
    getTimelineItems [blankItem 1 1 "a" 0] 1 none (some "!!!") none none false =
      getTimelineItems [blankItem 1 1 "a" 0] 1 none none none none false := by
  refine ⟨by decide, ?_⟩
  exact (decodeCursor_fail_open "!!!" [blankItem 1 1 "a" 0] 1 none none false
    { channelId := 1, readByNe := none, cursorOr := none } (by decide)).2.2

/-- Counterexample for C10 as stated: `"NQ"` is base64url for the JSON text
`5`, not a well-formed cursor, yet `decodeCursor` returns a degenerate cursor
object (not nothing) and the built query carries a cursor constraint; and for
the decode-failure string `"!!!"` used as `before`, the returned page differs
from the no-cursor page (ascending instead of newest-first). -/
theorem decodeCursor_not_wellformed_cex :
    ¬ wellFormedCursorString "NQ" ∧
    decodeCursor "NQ" ≠ none ∧
    buildPaginationQuery (some "NQ") none
        { channelId := 0, readByNe := none, cursorOr := none } ≠
      some { channelId := 0, readByNe := none, cursorOr := none } ∧
    getTimelineItems c10Store 1 (some "!!!") none none none false ≠
      getTimelineItems c10Store 1 none none none none false := by decide

/-! ### C3: timeline ordering with a `before` cursor -/

/-- C3, evaluated at the failing input: channel 7 holds items published at
1000 (`_id` 1) and 2000 (`_id` 2); the `before` cursor encodes
`(t = 500, id = 0)`, so both match with no constraint violated — and the page
comes back `[(1000,1), (2000,2)]`, oldest first.  The source maps items to
jf2 BEFORE `generatePagingCursors` reverses its local array, so the promised
final reversal never reaches the response: the claim's newest-first order
fails for `before` pages. -/
theorem getTimelineItems_before_page_ascending_eval :
    (getTimelineItems c3Store 7 (some c3BeforeCursor) none none none false).map
        (fun tl => tl.items.map fun j => (j.published, j.oid)) =
      some [(1000, 1), (2000, 2)] ∧
    (1000 : Int) < 2000 := by decide

/-! ### C7 and C4: cleanup lemmas -/

theorem stripItem_fields (e : StoredItem) :
    (stripItem e).channelId = e.channelId ∧ (stripItem e).uid = e.uid ∧
    (stripItem e).feedId = e.feedId ∧ (stripItem e).readBy = e.readBy ∧
    (stripItem e).oid = e.oid ∧ (stripItem e).stripped = true :=
  ⟨rfl, rfl, rfl, rfl, rfl, rfl⟩

theorem addToSet_fields (user : String) (e : StoredItem) :
    (addToSet user e).channelId = e.channelId ∧ (addToSet user e).uid = e.uid ∧
    (addToSet user e).feedId = e.feedId ∧ (addToSet user e).oid = e.oid ∧
    (addToSet user e).stripped = e.stripped ∧
    (addToSet user e).published = e.published := by
  unfold addToSet
  split <;> exact ⟨rfl, rfl, rfl, rfl, rfl, rfl⟩

/-- Unfolding of the cleanup through the named sublists. -/
theorem cleanupOldReadItems_eq (store : List StoredItem) (ch : Nat) (user : String) :
    cleanupOldReadItems store ch user =
      if store.countP (fun e => decide (readByUserPred ch user e)) > MAX_FULL_READ_ITEMS then
        if cleanupDropList store ch user = [] then store
        else
          (store.filter fun e => decide (e.oid ∉ cleanupApIds store ch user)).map
            fun e => if e.oid ∈ cleanupRssIds store ch user then stripItem e else e
      else store := rfl

/-- Members of the cleanup working list are full read items of the store. -/
theorem mem_cleanupDropList (store : List StoredItem) (ch : Nat) (user : String)
    (e : StoredItem) (he : e ∈ cleanupDropList store ch user) :
    e ∈ store ∧ fullReadPred ch user e := by
  unfold cleanupDropList at he
  have h1 := List.mem_of_mem_drop he
  rw [List.mem_insertionSort] at h1
  rw [List.mem_filter] at h1
  exact ⟨h1.1, of_decide_eq_true h1.2⟩

/-- With pairwise-distinct ids, a store holds at most `|ids|` documents whose
id is listed in `ids`. -/
theorem countP_mem_erase_of_not_mem (xs : List StoredItem) (ids : List Nat)
    (a : Nat) (hx : a ∉ xs.map (·.oid)) :
    xs.countP (fun x => decide (x.oid ∈ ids.erase a)) =
      xs.countP (fun x => decide (x.oid ∈ ids)) := by
  induction xs with
  | nil => rfl
  | cons x rest ih =>
    simp only [List.map_cons, List.mem_cons, not_or] at hx
    simp only [List.countP_cons]
    have hxne : x.oid ≠ a := fun hc => hx.1 hc.symm
    rw [ih hx.2]
    have hiff : (decide (x.oid ∈ ids.erase a)) = decide (x.oid ∈ ids) := by
      simp [List.mem_erase_of_ne hxne]
    rw [hiff]

theorem countP_oid_mem_le (l : List StoredItem) (ids : List Nat)
    (h : (l.map (·.oid)).Nodup) :
    l.countP (fun e => decide (e.oid ∈ ids)) ≤ ids.length := by
  induction l generalizing ids with
  | nil => simp
  | cons e rest ih =>
    simp only [List.map_cons, List.nodup_cons] at h
    simp only [List.countP_cons]
    by_cases hm : e.oid ∈ ids
    · have hcongr := countP_mem_erase_of_not_mem rest ids e.oid h.1
      have hlen := List.length_erase_of_mem hm
      have hpos : 1 ≤ ids.length := List.length_pos_of_mem hm
      have hrec := ih (ids.erase e.oid) h.2
      rw [← hcongr]
      have hT : (decide (e.oid ∈ ids)) = true := by simp [hm]
      simp only [hT, if_true]
      omega
    · have hrec := ih ids h.2
      simp [hm]
      omega

/-- A nonempty cleanup drop list forces the `readCount > 200` guard. -/
theorem cleanup_guard_of_dropList_ne (store : List StoredItem) (ch : Nat)
    (user : String) (hD : cleanupDropList store ch user ≠ []) :
    store.countP (fun e => decide (readByUserPred ch user e)) > MAX_FULL_READ_ITEMS := by
  have hlen : (cleanupDropList store ch user).length ≠ 0 := by
    simpa [List.length_eq_zero] using hD
  unfold cleanupDropList at hlen
  rw [List.length_drop] at hlen
  have hsort : (List.insertionSort timelineDescLe
      (store.filter fun e => decide (fullReadPred ch user e))).length =
      (store.filter fun e => decide (fullReadPred ch user e)).length :=
    (List.perm_insertionSort _ _).length_eq
  have hcount : (store.filter fun e => decide (fullReadPred ch user e)).length =
      store.countP (fun e => decide (fullReadPred ch user e)) :=
    (List.countP_eq_length_filter _ _).symm
  have hmono : store.countP (fun e => decide (fullReadPred ch user e)) ≤
      store.countP (fun e => decide (readByUserPred ch user e)) := by
    apply List.countP_mono_left
    intro e _ hp
    have := of_decide_eq_true hp
    exact decide_eq_true ⟨this.1, this.2.1⟩
  omega

/-- After cleanup, the channel holds at most `MAX_FULL_READ_ITEMS` full read
items for the `(channel, user)` pair. -/
theorem cleanup_fullRead_le (store : List StoredItem) (ch : Nat) (user : String)
    (hnd : (store.map (·.oid)).Nodup) :
    (cleanupOldReadItems store ch user).countP
        (fun e => decide (fullReadPred ch user e)) ≤ MAX_FULL_READ_ITEMS := by
  have hmono : store.countP (fun e => decide (fullReadPred ch user e)) ≤
      store.countP (fun e => decide (readByUserPred ch user e)) := by
    apply List.countP_mono_left
    intro e _ hp
    have h2 := of_decide_eq_true hp
    exact decide_eq_true ⟨h2.1, h2.2.1⟩
  rw [cleanupOldReadItems_eq]
  split_ifs with hguard hemp
  · have hlen0 : (cleanupDropList store ch user).length = 0 := by rw [hemp]; rfl
    unfold cleanupDropList at hlen0
    rw [List.length_drop] at hlen0
    have hsort := (List.perm_insertionSort timelineDescLe
      (store.filter fun e => decide (fullReadPred ch user e))).length_eq
    have hcount := List.countP_eq_length_filter
      (fun e => decide (fullReadPred ch user e)) store
    omega
  · rw [List.countP_map, List.countP_filter]
    have hstep : store.countP
        (fun a => ((fun e => decide (fullReadPred ch user e)) ∘
          fun e => if e.oid ∈ cleanupRssIds store ch user then stripItem e else e) a &&
          decide (a.oid ∉ cleanupApIds store ch user)) ≤
        store.countP (fun e => decide (e.oid ∈
          ((List.insertionSort timelineDescLe
            (store.filter fun x => decide (fullReadPred ch user x))).take
              MAX_FULL_READ_ITEMS).map (·.oid))) := by
      apply List.countP_mono_left
      intro e he hp
      simp only [Function.comp_apply, Bool.and_eq_true] at hp
      obtain ⟨hpf, hq⟩ := hp
      have hap : e.oid ∉ cleanupApIds store ch user := of_decide_eq_true hq
      by_cases hrss : e.oid ∈ cleanupRssIds store ch user
      · exfalso
        rw [if_pos hrss] at hpf
        exact (of_decide_eq_true hpf).2.2 rfl
      · rw [if_neg hrss] at hpf
        have heS : e ∈ List.insertionSort timelineDescLe
            (store.filter fun x => decide (fullReadPred ch user x)) := by
          rw [List.mem_insertionSort, List.mem_filter]
          exact ⟨he, hpf⟩
        rw [← List.take_append_drop MAX_FULL_READ_ITEMS
          (List.insertionSort timelineDescLe
            (store.filter fun x => decide (fullReadPred ch user x))),
          List.mem_append] at heS
        rcases heS with htake | hdrop
        · exact decide_eq_true (List.mem_map_of_mem _ htake)
        · exfalso
          have hD : e ∈ cleanupDropList store ch user := hdrop
          cases hfid : e.feedId with
          | none =>
            apply hap
            unfold cleanupApIds
            exact List.mem_map_of_mem _ (List.mem_filter.mpr ⟨hD, by simp [hfid]⟩)
          | some v =>
            apply hrss
            unfold cleanupRssIds
            exact List.mem_map_of_mem _ (List.mem_filter.mpr ⟨hD, by simp [hfid]⟩)
    have hbound := countP_oid_mem_le store
      (((List.insertionSort timelineDescLe
        (store.filter fun x => decide (fullReadPred ch user x))).take
          MAX_FULL_READ_ITEMS).map (·.oid)) hnd
    have hlen : (((List.insertionSort timelineDescLe
        (store.filter fun x => decide (fullReadPred ch user x))).take
          MAX_FULL_READ_ITEMS).map (·.oid)).length ≤ MAX_FULL_READ_ITEMS := by
      rw [List.length_map]
      exact le_trans (List.length_take_le _ _) (le_refl _)
    omega
  · omega

/-- Cleanup keeps every store element that is not on its drop list. -/
theorem cleanup_untouched (store : List StoredItem) (ch : Nat) (user : String)
    (hnd : (store.map (·.oid)).Nodup) :
    ∀ e ∈ store, e ∉ cleanupDropList store ch user →
      e ∈ cleanupOldReadItems store ch user := by
  intro e he hnD
  rw [cleanupOldReadItems_eq]
  split_ifs with hguard hemp
  · exact he
  · have hap : e.oid ∉ cleanupApIds store ch user := by
      intro hmem
      unfold cleanupApIds at hmem
      rw [List.mem_map] at hmem
      obtain ⟨d, hd, hoid⟩ := hmem
      rw [List.mem_filter] at hd
      have hdstore := (mem_cleanupDropList store ch user d hd.1).1
      have hde : d = e := List.inj_on_of_nodup_map hnd hdstore he hoid
      exact hnD (hde ▸ hd.1)
    have hrss : e.oid ∉ cleanupRssIds store ch user := by
      intro hmem
      unfold cleanupRssIds at hmem
      rw [List.mem_map] at hmem
      obtain ⟨d, hd, hoid⟩ := hmem
      rw [List.mem_filter] at hd
      have hdstore := (mem_cleanupDropList store ch user d hd.1).1
      have hde : d = e := List.inj_on_of_nodup_map hnd hdstore he hoid
      exact hnD (hde ▸ hd.1)
    rw [List.mem_map]
    exact ⟨e, List.mem_filter.mpr ⟨he, decide_eq_true hap⟩, if_neg hrss⟩
  · exact he

/-- Cleanup replaces each poll-sourced drop-list item by its stripped
skeleton. -/
theorem cleanup_strips (store : List StoredItem) (ch : Nat) (user : String)
    (hnd : (store.map (·.oid)).Nodup) (e : StoredItem)
    (hD : e ∈ cleanupDropList store ch user) (hfid : e.feedId ≠ none) :
    stripItem e ∈ cleanupOldReadItems store ch user ∧
      e ∉ cleanupOldReadItems store ch user := by
  have hne : cleanupDropList store ch user ≠ [] := by
    intro h0; rw [h0] at hD; exact (List.not_mem_nil e) hD
  have hguard := cleanup_guard_of_dropList_ne store ch user hne
  have hestore := (mem_cleanupDropList store ch user e hD).1
  have hfull := (mem_cleanupDropList store ch user e hD).2
  have hrss : e.oid ∈ cleanupRssIds store ch user := by
    unfold cleanupRssIds
    exact List.mem_map_of_mem _ (List.mem_filter.mpr ⟨hD, decide_eq_true hfid⟩)
  have hap : e.oid ∉ cleanupApIds store ch user := by
    intro hmem
    unfold cleanupApIds at hmem
    rw [List.mem_map] at hmem
    obtain ⟨d, hd, hoid⟩ := hmem
    rw [List.mem_filter] at hd
    have hdstore := (mem_cleanupDropList store ch user d hd.1).1
    have hde : d = e := List.inj_on_of_nodup_map hnd hdstore hestore hoid
    exact hfid (hde ▸ of_decide_eq_true hd.2)
  rw [cleanupOldReadItems_eq, if_pos hguard, if_neg hne]
  constructor
  · rw [List.mem_map]
    exact ⟨e, List.mem_filter.mpr ⟨hestore, decide_eq_true hap⟩, if_pos hrss⟩
  · intro hcontra
    rw [List.mem_map] at hcontra
    obtain ⟨x, hx, hfx⟩ := hcontra
    by_cases hxr : x.oid ∈ cleanupRssIds store ch user
    · rw [if_pos hxr] at hfx
      exact hfull.2.2 (by rw [← hfx]; rfl)
    · rw [if_neg hxr] at hfx
      subst hfx
      exact hxr hrss

/-- Cleanup removes each push-sourced drop-list item outright: no surviving
document carries its id. -/
theorem cleanup_deletes (store : List StoredItem) (ch : Nat) (user : String)
    (e : StoredItem) (hD : e ∈ cleanupDropList store ch user)
    (hfid : e.feedId = none) :
    ∀ r ∈ cleanupOldReadItems store ch user, r.oid ≠ e.oid := by
  have hne : cleanupDropList store ch user ≠ [] := by
    intro h0; rw [h0] at hD; exact (List.not_mem_nil e) hD
  have hguard := cleanup_guard_of_dropList_ne store ch user hne
  have hEap : e.oid ∈ cleanupApIds store ch user := by
    unfold cleanupApIds
    exact List.mem_map_of_mem _ (List.mem_filter.mpr ⟨hD, decide_eq_true hfid⟩)
  rw [cleanupOldReadItems_eq, if_pos hguard, if_neg hne]
  intro r hr
  rw [List.mem_map] at hr
  obtain ⟨x, hx, hfx⟩ := hr
  rw [List.mem_filter] at hx
  have hxap : x.oid ∉ cleanupApIds store ch user := of_decide_eq_true hx.2
  have hroid : r.oid = x.oid := by
    rw [← hfx]
    split <;> rfl
  intro heq
  have hxe : x.oid = e.oid := by rw [← hroid, heq]
  exact hxap (hxe ▸ hEap)

/-- Every document surviving cleanup is an original document or the stripped
skeleton of one. -/
theorem cleanup_provenance (store : List StoredItem) (ch : Nat) (user : String) :
    ∀ r ∈ cleanupOldReadItems store ch user, ∃ x ∈ store, r = x ∨ r = stripItem x := by
  intro r hr
  rw [cleanupOldReadItems_eq] at hr
  split_ifs at hr with hguard hemp
  · exact ⟨r, hr, Or.inl rfl⟩
  · rw [List.mem_map] at hr
    obtain ⟨x, hx, hfx⟩ := hr
    rw [List.mem_filter] at hx
    refine ⟨x, hx.1, ?_⟩
    by_cases hxr : x.oid ∈ cleanupRssIds store ch user
    · right; rw [← hfx, if_pos hxr]
    · left; rw [← hfx, if_neg hxr]
  · exact ⟨r, hr, Or.inl rfl⟩

/-! ### C7: the claim theorem -/

/-- C7: cleanup transitions only read items beyond the newest
`MAX_FULL_READ_ITEMS`: (i) an item not read by the user is never modified or
deleted; (ii) any item off the drop list survives unchanged; (iii) drop-list
items are exactly read, non-stripped items of the channel; (iv) a drop-list
item with a `feedId` is replaced by its stripped skeleton (and its full form
disappears); (v) one without a `feedId` is deleted outright; (vi) stripping
removes only content fields — channel, uid, feedId, readBy and id survive;
(vii) every surviving document is an original or a stripped original. -/
theorem cleanupOldReadItems_frame (store : List StoredItem) (ch : Nat)
    (user : String) (hnd : (store.map (·.oid)).Nodup) :
    (∀ e ∈ store, user ∉ e.readBy → e ∈ cleanupOldReadItems store ch user) ∧
    (∀ e ∈ store, e ∉ cleanupDropList store ch user →
      e ∈ cleanupOldReadItems store ch user) ∧
    (∀ e ∈ cleanupDropList store ch user,
      e.channelId = ch ∧ user ∈ e.readBy ∧ e.stripped ≠ true) ∧
    (∀ e ∈ cleanupDropList store ch user, e.feedId ≠ none →
      stripItem e ∈ cleanupOldReadItems store ch user ∧
      e ∉ cleanupOldReadItems store ch user) ∧
    (∀ e ∈ cleanupDropList store ch user, e.feedId = none →
      ∀ r ∈ cleanupOldReadItems store ch user, r.oid ≠ e.oid) ∧
    (∀ e : StoredItem, (stripItem e).channelId = e.channelId ∧
      (stripItem e).uid = e.uid ∧ (stripItem e).feedId = e.feedId ∧
      (stripItem e).readBy = e.readBy ∧ (stripItem e).oid = e.oid) ∧
    (∀ r ∈ cleanupOldReadItems store ch user, ∃ x ∈ store, r = x ∨ r = stripItem x) := by
  refine ⟨?_, cleanup_untouched store ch user hnd, ?_,
    fun e hD hfid => cleanup_strips store ch user hnd e hD hfid,
    fun e hD hfid => cleanup_deletes store ch user e hD hfid,
    fun e => ⟨rfl, rfl, rfl, rfl, rfl⟩,
    cleanup_provenance store ch user⟩
  · intro e he hunread
    apply cleanup_untouched store ch user hnd e he
    intro hD
    exact hunread (mem_cleanupDropList store ch user e hD).2.2.1
  · intro e hD
    exact (mem_cleanupDropList store ch user e hD).2

/-- Witness for C7's theorem: on the empty store (trivially Nodup) the
field-preservation conjunct instantiates at a concrete item. -/
theorem cleanupOldReadItems_frame_witness :
    (stripItem (blankItem 1 0 "a" 0)).uid = "a" ∧
    (stripItem (blankItem 1 0 "a" 0)).channelId = 0 ∧
    (stripItem (blankItem 1 0 "a" 0)).stripped = true := by
  have h := cleanupOldReadItems_frame [] 0 "u" (by decide)
  have h6 := h.2.2.2.2.2.1 (blankItem 1 0 "a" 0)
  exact ⟨h6.2.1, h6.1, rfl⟩

/-! ### C4: mark-read and cleanup -/

/-- C4 (amended): only a mark-read whose entry list contains the
`"last-read-entry"` sentinel triggers the per-channel cleanup.  On that path,
afterwards at most `MAX_FULL_READ_ITEMS` non-stripped read items remain for
the `(channel, user)` pair, items of other channels survive unchanged, and
every surviving document keys back (id, channel, uid) to an original one.  A
mark-read of specific entry ids performs no cleanup at all: the id/uid/
stripped profile of the collection is unchanged (only `readBy` grows), so the
200 bound is not enforced there. -/
theorem markItemsRead_sentinel_cleanup_bound (store : List StoredItem) (ch : Nat)
    (entryIds : List String) (user : String)
    (hnd : (store.map (·.oid)).Nodup) :
    ("last-read-entry" ∈ entryIds →
      (markItemsRead store ch entryIds user).countP
          (fun e => decide (fullReadPred ch user e)) ≤ MAX_FULL_READ_ITEMS ∧
      (∀ e ∈ store, e.channelId ≠ ch → e ∈ markItemsRead store ch entryIds user) ∧
      (∀ r ∈ markItemsRead store ch entryIds user,
        ∃ e ∈ store, r.oid = e.oid ∧ r.channelId = e.channelId ∧ r.uid = e.uid)) ∧
    ("last-read-entry" ∉ entryIds →
      (markItemsRead store ch entryIds user).map (fun e => (e.oid, e.uid, e.stripped)) =
        store.map fun e => (e.oid, e.uid, e.stripped)) := by
  constructor
  · intro hsent
    unfold markItemsRead
    rw [if_pos hsent]
    dsimp only
    set marked := store.map (fun e => if e.channelId = ch then addToSet user e else e)
      with hmarked
    have hnd2 : (marked.map (·.oid)).Nodup := by
      rw [hmarked, List.map_map]
      have hfun : ((fun e : StoredItem => e.oid) ∘
          fun e => if e.channelId = ch then addToSet user e else e) =
          fun e : StoredItem => e.oid := by
        funext e
        simp only [Function.comp_apply]
        split
        · exact (addToSet_fields user e).2.2.2.1
        · rfl
      rw [hfun]
      exact hnd
    refine ⟨cleanup_fullRead_le marked ch user hnd2, ?_, ?_⟩
    · intro e he hch
      have hmem : e ∈ marked := by
        rw [hmarked]
        have hid : (if e.channelId = ch then addToSet user e else e) = e := if_neg hch
        exact hid ▸ List.mem_map_of_mem _ he
      apply cleanup_untouched marked ch user hnd2 e hmem
      intro hD
      exact hch ((mem_cleanupDropList marked ch user e hD).2.1)
    · intro r hr
      obtain ⟨m, hm, hcase⟩ := cleanup_provenance marked ch user r hr
      rw [hmarked, List.mem_map] at hm
      obtain ⟨e, he, hfe⟩ := hm
      refine ⟨e, he, ?_⟩
      have hfields : m.oid = e.oid ∧ m.channelId = e.channelId ∧ m.uid = e.uid := by
        rw [← hfe]
        split
        · exact ⟨(addToSet_fields user e).2.2.2.1, (addToSet_fields user e).1,
            (addToSet_fields user e).2.1⟩
        · exact ⟨rfl, rfl, rfl⟩
      rcases hcase with hre | hre
      · subst hre
        exact hfields
      · subst hre
        exact ⟨hfields.1, hfields.2⟩
  · intro hnos
    unfold markItemsRead
    rw [if_neg hnos]
    dsimp only
    rw [List.map_map]
    apply List.map_congr_left
    intro e _
    simp only [Function.comp_apply]
    split
    · have hf := addToSet_fields user e
      rw [hf.2.2.2.1, hf.2.1, hf.2.2.2.2.1]
    · rfl

/-- Witness for C4's theorem: a sentinel mark-read on a one-item store keeps
both conclusions at concrete inputs. -/
theorem markItemsRead_sentinel_cleanup_bound_witness :
    (markItemsRead [blankItem 1 0 "a" 0] 0 ["last-read-entry"] "alice").countP
        (fun e => decide (fullReadPred 0 "alice" e)) ≤ MAX_FULL_READ_ITEMS ∧
    (markItemsRead [blankItem 1 5 "a" 0] 5 ["x"] "alice").map
        (fun e => (e.oid, e.uid, e.stripped)) =
      [blankItem 1 5 "a" 0].map (fun e => (e.oid, e.uid, e.stripped)) := by
  constructor
  · exact ((markItemsRead_sentinel_cleanup_bound [blankItem 1 0 "a" 0] 0
      ["last-read-entry"] "alice" (by decide)).1 (by decide)).1
  · exact (markItemsRead_sentinel_cleanup_bound [blankItem 1 5 "a" 0] 5
      ["x"] "alice" (by decide)).2 (by decide)

set_option maxRecDepth 20000 in
/-- Counterexample for C4 as stated: marking 201 specific entries read (no
sentinel) runs no cleanup, leaving 201 non-stripped read items for the
`(channel, owner)` pair — above the 200 bound the claim asserts for every
mark-read. -/
theorem markItemsRead_idlist_no_cleanup_cex :
    (markItemsRead c4Store 0 c4EntryIds "alice").countP
        (fun e => decide (fullReadPred 0 "alice" e)) = 201 ∧
    ¬ (201 ≤ MAX_FULL_READ_ITEMS) := by
  constructor
  · decide
  · decide
